import Mathlib

/-!
Verification development for the iceaxe query builder and schema
migration engine.

The Python source is shallowly embedded:

* Python strings are modelled as `List Char` (`Str`).
* Python objects that flow through the dynamically typed query layer are
  modelled by the inductive type `Obj`.
* Python's reference semantics for the builder's mutable `list` fields and
  for the mutable `FunctionMetadata` objects is modelled explicitly by a
  heap (`PyHeap`): a builder holds cell indices, `copy.copy` copies the
  indices (shallow copy), and in-place list operations (`+=`, `.append`)
  mutate the shared cell.
* A method that can raise returns `Except Err ...`; `Err.valueError`
  models `ValueError`, `Err.attributeError` models `AttributeError`.
* SQL output is assembled as a list of fragments (`Frag`): plain text or a
  numbered parameter placeholder together with the bound value.  The
  returned SQL string is the rendering (`renderFrags`) of that list; a
  placeholder `$k` renders as a dollar sign followed by the decimal digits
  of `k`, exactly as the Python f-strings produce.
-/

set_option maxHeartbeats 1000000

namespace Iceaxe

/-- Python strings are modelled as lists of characters. -/
abbrev Str := List Char

/-- Decimal-digit worker with explicit fuel, so that the definition is
structurally recursive and reduces inside the kernel. -/
def natDigitsAux (fuel : Nat) (n : Nat) : List Nat :=
  match fuel with
  | 0 => [n]
  | fuel + 1 => if n < 10 then [n] else natDigitsAux fuel (n / 10) ++ [n % 10]

/-- Decimal digits of a natural number, most significant first
(`natDigits 120 = [1, 2, 0]`). Models Python decimal integer formatting. -/
def natDigits (n : Nat) : List Nat := natDigitsAux n n

theorem natDigitsAux_congr : ∀ (f1 f2 n : Nat), n ≤ f1 → n ≤ f2 →
    natDigitsAux f1 n = natDigitsAux f2 n := by
  intro f1
  induction f1 with
  | zero =>
      intro f2 n h1 h2
      have hn : n = 0 := Nat.le_zero.mp h1
      subst hn
      cases f2 with
      | zero => rfl
      | succ g => simp [natDigitsAux]
  | succ f ih =>
      intro f2 n h1 h2
      cases f2 with
      | zero =>
          have hn : n = 0 := Nat.le_zero.mp h2
          subst hn
          simp [natDigitsAux]
      | succ g =>
          simp only [natDigitsAux]
          split
          · rfl
          · next hge =>
              have hlt : n / 10 < n := Nat.div_lt_self (by omega) (by omega)
              rw [ih g (n / 10) (by omega) (by omega)]

/-- The defining recurrence of `natDigits`. -/
theorem natDigits_eq (n : Nat) :
    natDigits n = if n < 10 then [n] else natDigits (n / 10) ++ [n % 10] := by
  unfold natDigits
  cases hn : n with
  | zero => simp [natDigitsAux]
  | succ m =>
      simp only [natDigitsAux]
      split
      · rfl
      · next hge =>
          have hlt : (m + 1) / 10 < m + 1 := Nat.div_lt_self (by omega) (by omega)
          rw [natDigitsAux_congr m ((m + 1) / 10) ((m + 1) / 10) (by omega)
            (Nat.le_refl _)]

/-- A single decimal digit as a character. -/
def digitToChar (d : Nat) : Char :=
  match d with
  | 0 => '0' | 1 => '1' | 2 => '2' | 3 => '3' | 4 => '4'
  | 5 => '5' | 6 => '6' | 7 => '7' | 8 => '8' | _ => '9'

/-- Decimal rendering of a natural number, as produced by a Python
f-string interpolation of an `int`. -/
def natChars (n : Nat) : Str := (natDigits n).map digitToChar

/-- Decimal rendering of a Python `int` (possibly negative). -/
def intChars (n : Int) : Str :=
  if n < 0 then '-' :: natChars n.natAbs else natChars n.natAbs

/-- `ComparisonType` enum from src/iceaxe/comparison.py (the enum as it
appears in the source: nine members). -/
inductive ComparisonType where
  | EQ | NE | LT | LE | GT | GE | IN | NOT_IN | LIKE
  deriving DecidableEq, Repr

/-- The string value of each `ComparisonType` member
(src/iceaxe/comparison.py lines 6-15). -/
def ComparisonType.value : ComparisonType → Str
  | .EQ => "=".data
  | .NE => "!=".data
  | .LT => "<".data
  | .LE => "<=".data
  | .GT => ">".data
  | .GE => ">=".data
  | .IN => "IN".data
  | .NOT_IN => "NOT IN".data
  | .LIKE => "LIKE".data

/-- Modelled from the spec: `ComparisonGroupType` (src/iceaxe/comparison.py
in the revision imported by queries.py is not in the snapshot); §3 of the
spec: group kind is AND or OR. -/
inductive ComparisonGroupType where
  | AND | OR
  deriving DecidableEq, Repr

/-- SQL keyword for a comparison group kind. -/
def ComparisonGroupType.value : ComparisonGroupType → Str
  | .AND => "AND".data
  | .OR => "OR".data

/-- Modelled from the spec: a column reference `DBFieldClassDefinition`
(src/iceaxe/base.py is not in the snapshot).  Carries the owning model's
table name (`root_model.get_table_name()`) and the column key, per §3
ColumnRef. -/
structure DBField where
  rootModel : Str
  key : Str
  deriving DecidableEq, Repr

/-- Modelled from the spec: a table model (`Type[TableBase]`,
src/iceaxe/base.py is not in the snapshot); only its table name is
relevant to query rendering. -/
structure PyTable where
  name : Str
  deriving DecidableEq, Repr

/-- Record held by a mutable `FunctionMetadata` object
(src/iceaxe/functions.py lines 15-63): the SQL literal, the original
field, and the optional local alias. -/
structure FMRecord where
  literal : Str
  originalField : Option DBField
  localName : Option Str
  deriving DecidableEq, Repr

/-- The universe of Python values flowing through the query layer.
`fmRef` is a reference to a mutable `FunctionMetadata` object in the heap;
`comp` models `FieldComparison(left, comparison, right)` and `group`
models `FieldComparisonGroup(type, elements)`. -/
inductive Obj where
  | none
  | int (n : Int)
  | str (s : Str)
  | boolean (b : Bool)
  | list (xs : List Obj)
  | column (c : DBField)
  | table (t : PyTable)
  | fmRef (r : Nat)
  | comp (left : Obj) (op : ComparisonType) (right : Obj)
  | group (g : ComparisonGroupType) (elements : List Obj)
  | pair (a b : Obj)

mutual

/-- Boolean equality on `Obj` (value equality of Python objects). -/
def Obj.beq : Obj → Obj → Bool
  | .none, .none => true
  | .int a, .int b => decide (a = b)
  | .str a, .str b => decide (a = b)
  | .boolean a, .boolean b => decide (a = b)
  | .list xs, .list ys => Obj.beqList xs ys
  | .column a, .column b => decide (a = b)
  | .table a, .table b => decide (a = b)
  | .fmRef a, .fmRef b => decide (a = b)
  | .comp l1 o1 r1, .comp l2 o2 r2 =>
      Obj.beq l1 l2 && decide (o1 = o2) && Obj.beq r1 r2
  | .group g1 e1, .group g2 e2 => decide (g1 = g2) && Obj.beqList e1 e2
  | .pair a1 b1, .pair a2 b2 => Obj.beq a1 a2 && Obj.beq b1 b2
  | _, _ => false

/-- Boolean equality on lists of `Obj`. -/
def Obj.beqList : List Obj → List Obj → Bool
  | [], [] => true
  | x :: xs, y :: ys => Obj.beq x y && Obj.beqList xs ys
  | _, _ => false

end

mutual

theorem Obj.eq_of_beq : ∀ {a b : Obj}, Obj.beq a b = true → a = b
  | .none, .none, _ => rfl
  | .int _, .int _, h => by
      simpa [Obj.beq, decide_eq_true_eq] using congrArg Obj.int (of_decide_eq_true h)
  | .str _, .str _, h => congrArg Obj.str (of_decide_eq_true h)
  | .boolean _, .boolean _, h => congrArg Obj.boolean (of_decide_eq_true h)
  | .list _, .list _, h => congrArg Obj.list (Obj.eqList_of_beqList h)
  | .column _, .column _, h => congrArg Obj.column (of_decide_eq_true h)
  | .table _, .table _, h => congrArg Obj.table (of_decide_eq_true h)
  | .fmRef _, .fmRef _, h => congrArg Obj.fmRef (of_decide_eq_true h)
  | .comp l1 o1 r1, .comp l2 o2 r2, h => by
      simp only [Obj.beq, Bool.and_eq_true, decide_eq_true_eq] at h
      obtain ⟨⟨h1, h2⟩, h3⟩ := h
      rw [Obj.eq_of_beq h1, h2, Obj.eq_of_beq h3]
  | .group g1 e1, .group g2 e2, h => by
      simp only [Obj.beq, Bool.and_eq_true, decide_eq_true_eq] at h
      rw [h.1, Obj.eqList_of_beqList h.2]
  | .pair a1 b1, .pair a2 b2, h => by
      simp only [Obj.beq, Bool.and_eq_true] at h
      rw [Obj.eq_of_beq h.1, Obj.eq_of_beq h.2]

theorem Obj.eqList_of_beqList : ∀ {xs ys : List Obj},
    Obj.beqList xs ys = true → xs = ys
  | [], [], _ => rfl
  | x :: xs, y :: ys, h => by
      simp only [Obj.beqList, Bool.and_eq_true] at h
      rw [Obj.eq_of_beq h.1, Obj.eqList_of_beqList h.2]

end

mutual

theorem Obj.beq_refl : ∀ a : Obj, Obj.beq a a = true
  | .none => rfl
  | .int a => by simp [Obj.beq]
  | .str a => by simp [Obj.beq]
  | .boolean a => by simp [Obj.beq]
  | .list xs => Obj.beqList_refl xs
  | .column a => by simp [Obj.beq]
  | .table a => by simp [Obj.beq]
  | .fmRef a => by simp [Obj.beq]
  | .comp l o r => by
      simp [Obj.beq, Obj.beq_refl l, Obj.beq_refl r]
  | .group g e => by
      simp [Obj.beq, Obj.beqList_refl e]
  | .pair a b => by
      simp [Obj.beq, Obj.beq_refl a, Obj.beq_refl b]

theorem Obj.beqList_refl : ∀ xs : List Obj, Obj.beqList xs xs = true
  | [] => rfl
  | x :: xs => by simp [Obj.beqList, Obj.beq_refl x, Obj.beqList_refl xs]

end

instance : DecidableEq Obj := fun a b =>
  if h : Obj.beq a b = true then isTrue (Obj.eq_of_beq h)
  else isFalse (fun he => h (he ▸ Obj.beq_refl a))

/-- Runtime guard `is_column` (src/iceaxe/typing.py line 19). -/
def isColumn : Obj → Bool
  | .column _ => true
  | _ => false

/-- Runtime guard `is_base_table` (src/iceaxe/typing.py line 15). -/
def isBaseTable : Obj → Bool
  | .table _ => true
  | _ => false

/-- Runtime guard `is_comparison` (src/iceaxe/typing.py line 23). -/
def isComparison : Obj → Bool
  | .comp _ _ _ => true
  | _ => false

/-- Modelled from the spec: runtime guard `is_comparison_group` imported
by queries.py from iceaxe.typing (absent from the snapshot's typing.py);
it tests for a `FieldComparisonGroup`. -/
def isComparisonGroup : Obj → Bool
  | .group _ _ => true
  | _ => false

/-- Runtime guard `is_function_metadata` (src/iceaxe/typing.py line 31). -/
def isFunctionMetadata : Obj → Bool
  | .fmRef _ => true
  | _ => false

/-- Exceptions the embedded code can raise. -/
inductive Err where
  | valueError
  | attributeError
  deriving DecidableEq, Repr

instance {e a : Type} [DecidableEq e] [DecidableEq a] :
    DecidableEq (Except e a) := fun x y =>
  match x, y with
  | .error e1, .error e2 =>
      if h : e1 = e2 then isTrue (by rw [h])
      else isFalse (fun he => h (by cases he; rfl))
  | .ok a1, .ok a2 =>
      if h : a1 = a2 then isTrue (by rw [h])
      else isFalse (fun he => h (by cases he; rfl))
  | .error _, .ok _ => isFalse (fun he => by cases he)
  | .ok _, .error _ => isFalse (fun he => by cases he)

/-- The heap: `cells` holds the mutable Python lists owned by query
builders (a builder field stores an index into `cells`), `fms` holds the
mutable `FunctionMetadata` objects. -/
structure PyHeap where
  cells : List (List Obj)
  fms : List FMRecord
  deriving DecidableEq

/-- Empty heap. -/
def PyHeap.empty : PyHeap := { cells := [], fms := [] }

/-- Allocate a fresh list cell, returning its index. -/
def PyHeap.alloc (h : PyHeap) (xs : List Obj) : Nat × PyHeap :=
  (h.cells.length, { h with cells := h.cells ++ [xs] })

/-- Read a list cell. -/
def PyHeap.read (h : PyHeap) (i : Nat) : List Obj :=
  h.cells.getD i []

/-- Overwrite a list cell. -/
def PyHeap.write (h : PyHeap) (i : Nat) (xs : List Obj) : PyHeap :=
  { h with cells := h.cells.set i xs }

/-- In-place `list.__iadd__` / repeated `.append`: extend the cell. -/
def PyHeap.extend (h : PyHeap) (i : Nat) (xs : List Obj) : PyHeap :=
  h.write i (h.read i ++ xs)

/-- Allocate a fresh `FunctionMetadata` object. -/
def PyHeap.allocFm (h : PyHeap) (m : FMRecord) : Nat × PyHeap :=
  (h.fms.length, { h with fms := h.fms ++ [m] })

/-- Read a `FunctionMetadata` object. -/
def PyHeap.readFm (h : PyHeap) (r : Nat) : FMRecord :=
  h.fms.getD r { literal := [], originalField := Option.none, localName := Option.none }

/-- Overwrite a `FunctionMetadata` object (models in-place attribute
assignment on the mutable instance). -/
def PyHeap.writeFm (h : PyHeap) (r : Nat) (m : FMRecord) : PyHeap :=
  { h with fms := h.fms.set r m }

/-- A SQL output fragment: plain text, or a numbered parameter
placeholder together with the Python value bound to it. -/
inductive Frag where
  | s (txt : Str)
  | p (k : Nat) (v : Obj)
  deriving DecidableEq

/-- Render a fragment list to the final SQL string; the placeholder for
parameter `k` renders as a dollar sign followed by the decimal digits of
`k`, exactly as the Python f-strings produce. -/
def renderFrags : List Frag → Str
  | [] => []
  | .s t :: rest => t ++ renderFrags rest
  | .p k _ :: rest => '$' :: (natChars k ++ renderFrags rest)

/-- The numbered parameters of a fragment list, in order of occurrence,
each paired with the Python value bound at that placeholder. -/
def fragParams : List Frag → List (Nat × Obj)
  | [] => []
  | .s _ :: rest => fragParams rest
  | .p k v :: rest => (k, v) :: fragParams rest

/-- String join with a separator (Python `sep.join(parts)`). -/
def joinStr (sep : Str) : List Str → Str
  | [] => []
  | [x] => x
  | x :: rest => x ++ sep ++ joinStr sep rest

/-- Fragment-list join with a separator (Python `sep.join(parts)` at the
fragment level). -/
def joinFrags (sep : Str) : List (List Frag) → List Frag
  | [] => []
  | [x] => x
  | x :: rest => x ++ Frag.s sep :: joinFrags sep rest

/-- Modelled from the spec: `QueryIdentifier.__str__` renders the name
wrapped in double quotes (§4.1; iceaxe/queries_str.py is absent from the
snapshot, only its tests are present in
src/iceaxe/__tests__/test_queries_str.py). -/
def quoteIdent (s : Str) : Str := '"' :: (s ++ ['"'])

/-- Modelled from the spec: `DBFieldClassDefinition.to_query` renders a
column table-qualified as quoted table, dot, quoted column (§6;
iceaxe/base.py is absent from the snapshot). -/
def colToQuery (c : DBField) : Str :=
  quoteIdent c.rootModel ++ '.' :: quoteIdent c.key

/-- Modelled from the spec: `TableBase.select_fields` renders a
whole-table selection as the quoted table name followed by dot-star
(spec §6 whole-table select; iceaxe/base.py is absent from the
snapshot). -/
def tableSelectFields (t : PyTable) : Str := quoteIdent t.name ++ ".*".data

/-- `obj.to_query()[0]` for the operand kinds that support it: columns
and function metadata render to SQL text; any other object has no
`to_query` attribute, so Python raises `AttributeError`. -/
def objToQueryStr (h : PyHeap) : Obj → Except Err Str
  | .column c => .ok (colToQuery c)
  | .fmRef r => .ok (h.readFm r).literal
  | _ => .error .attributeError

/-- Python `str()` of the objects stored in the builder's rendered-field
cells; the builder only ever stores rendered strings there. -/
def objStr : Obj → Str
  | .str s => s
  | _ => []

/-- Query mode (the `QueryType` literal of src/iceaxe/queries.py line 51;
INSERT is delegated to the executor and never set by the builder). -/
inductive QueryType where
  | select | update | delete
  deriving DecidableEq, Repr

/-- Order direction literal (src/iceaxe/queries.py line 55). -/
inductive OrderDirection where
  | ASC | DESC
  deriving DecidableEq, Repr

/-- Rendered text of an order direction. -/
def OrderDirection.value : OrderDirection → Str
  | .ASC => "ASC".data
  | .DESC => "DESC".data

/-- Join type literal (src/iceaxe/queries.py line 54). -/
inductive JoinType where
  | INNER | LEFT | RIGHT | FULL
  deriving DecidableEq, Repr

/-- Rendered text of a join type. -/
def JoinType.value : JoinType → Str
  | .INNER => "INNER".data
  | .LEFT => "LEFT".data
  | .RIGHT => "RIGHT".data
  | .FULL => "FULL".data

/-- The query builder object (src/iceaxe/queries.py lines 114-139).  Each
Python `list` field is a heap cell index; `copy.copy` performed by
`allow_branching` (lines 58-71) copies the indices, so branched builders
share the underlying list objects. -/
structure Builder where
  queryType : Option QueryType
  mainModel : Option PyTable
  whereRef : Nat
  orderByRef : Nat
  joinRef : Nat
  limitValue : Option Int
  offsetValue : Option Int
  groupByRef : Nat
  havingRef : Nat
  distinctRef : Nat
  updateRef : Nat
  selectFieldsRef : Nat
  selectRawRef : Nat
  selectAggregateCount : Nat
  textQuery : Option Str
  textVarsRef : Nat
  deriving DecidableEq

namespace QueryBuilder

/-- `QueryBuilder.__init__` (src/iceaxe/queries.py lines 114-139):
allocates the builder's list fields as fresh empty lists. -/
def init (h : PyHeap) : Builder × PyHeap :=
  let (whereRef, h) := h.alloc []
  let (orderByRef, h) := h.alloc []
  let (joinRef, h) := h.alloc []
  let (groupByRef, h) := h.alloc []
  let (havingRef, h) := h.alloc []
  let (distinctRef, h) := h.alloc []
  let (updateRef, h) := h.alloc []
  let (selectFieldsRef, h) := h.alloc []
  let (selectRawRef, h) := h.alloc []
  let (textVarsRef, h) := h.alloc []
  ({ queryType := Option.none
     mainModel := Option.none
     whereRef := whereRef
     orderByRef := orderByRef
     joinRef := joinRef
     limitValue := Option.none
     offsetValue := Option.none
     groupByRef := groupByRef
     havingRef := havingRef
     distinctRef := distinctRef
     updateRef := updateRef
     selectFieldsRef := selectFieldsRef
     selectRawRef := selectRawRef
     selectAggregateCount := 0
     textQuery := Option.none
     textVarsRef := textVarsRef }, h)

/-- The per-field body of `QueryBuilder._select_inner`
(src/iceaxe/queries.py lines 255-271): appends the rendered field and the
raw field to the (shared) `select_fields` / `select_raw` lists, assigning
aggregate aliases to function metadata by mutating the metadata object in
place. -/
def selectLoop (b : Builder) (fields : List Obj) (h : PyHeap) :
    Builder × PyHeap :=
  match fields with
  | [] => (b, h)
  | f :: rest =>
    match f with
    | .column c =>
        let h := h.extend b.selectFieldsRef [.str (colToQuery c)]
        let h := h.extend b.selectRawRef [f]
        selectLoop b rest h
    | .table t =>
        let h := h.extend b.selectFieldsRef [.str (tableSelectFields t)]
        let h := h.extend b.selectRawRef [f]
        selectLoop b rest h
    | .fmRef r =>
        let localName := "aggregate_".data ++ natChars b.selectAggregateCount
        let h := h.writeFm r { h.readFm r with localName := some localName }
        let h := h.extend b.selectFieldsRef
          [.str ((h.readFm r).literal ++ " AS ".data ++ localName)]
        let h := h.extend b.selectRawRef [f]
        selectLoop { b with selectAggregateCount := b.selectAggregateCount + 1 } rest h
    | _ => selectLoop b rest h

/-- `QueryBuilder._select_inner` (src/iceaxe/queries.py lines 236-271):
sets the query type, requires at least one field, derives the main model
from the first field, then records every field. -/
def selectInner (b : Builder) (fields : List Obj) (h : PyHeap) :
    Except Err (Builder × PyHeap) :=
  let b := { b with queryType := some QueryType.select }
  match fields with
  | [] => .error .valueError
  | representative :: _ =>
      match
        (match representative with
         | .column c => Except.ok { b with mainModel := some ⟨c.rootModel⟩ }
         | .table t => Except.ok { b with mainModel := some t }
         | .fmRef r =>
             match (h.readFm r).originalField with
             | some f => Except.ok { b with mainModel := some ⟨f.rootModel⟩ }
             | Option.none => Except.error Err.attributeError
         | _ => Except.ok b) with
      | .error e => .error e
      | .ok b => .ok (selectLoop b fields h)

/-- `QueryBuilder.select` (src/iceaxe/queries.py lines 167-234): validates
every field is a column, a table or function metadata, then delegates to
`_select_inner`.  The tuple-normalisation of the argument is modelled by
taking the already-normalised field list. -/
def select (b : Builder) (fields : List Obj) (h : PyHeap) :
    Except Err (Builder × PyHeap) :=
  if fields.all fun f => isColumn f || isBaseTable f || isFunctionMetadata f then
    selectInner b fields h
  else .error .valueError

/-- `QueryBuilder.update` (src/iceaxe/queries.py lines 273-282). -/
def update (b : Builder) (model : PyTable) : Builder :=
  { b with queryType := some QueryType.update, mainModel := some model }

/-- `QueryBuilder.delete` (src/iceaxe/queries.py lines 284-293). -/
def delete (b : Builder) (model : PyTable) : Builder :=
  { b with queryType := some QueryType.delete, mainModel := some model }

/-- `QueryBuilder.where` (src/iceaxe/queries.py lines 295-349): validates
every condition, then extends the (shared) `where_conditions` list in
place via the Python `+=` on the list object. -/
def «where» (b : Builder) (conditions : List Obj) (h : PyHeap) :
    Except Err (Builder × PyHeap) :=
  if conditions.all fun c => isComparison c || isComparisonGroup c then
    .ok (b, h.extend b.whereRef conditions)
  else .error .valueError

/-- `QueryBuilder.order_by` (src/iceaxe/queries.py lines 351-390):
requires a column and appends the rendered clause to the (shared)
`order_by_clauses` list in place. -/
def orderBy (b : Builder) (field : Obj) (direction : OrderDirection)
    (h : PyHeap) : Except Err (Builder × PyHeap) :=
  match field with
  | .column c =>
      .ok (b, h.extend b.orderByRef
        [.str (colToQuery c ++ ' ' :: direction.value)])
  | _ => .error .valueError

/-- `QueryBuilder.join` (src/iceaxe/queries.py lines 392-440): requires a
comparison, renders the clause — note the joined table name goes through
`QueryLiteral(table.get_table_name())`, i.e. unquoted — and appends it to
the (shared) `join_clauses` list in place. -/
def join (b : Builder) (table : PyTable) (onCond : Obj) (joinType : JoinType)
    (h : PyHeap) : Except Err (Builder × PyHeap) :=
  match onCond with
  | .comp l op r =>
      match objToQueryStr h l with
      | .error e => .error e
      | .ok onLeft =>
        match objToQueryStr h r with
        | .error e => .error e
        | .ok onRight =>
            let joinSql := joinType.value ++ " JOIN ".data ++ table.name
              ++ " ON ".data ++ onLeft ++ ' ' :: op.value ++ ' ' :: onRight
            .ok (b, h.extend b.joinRef [.str joinSql])
  | _ => .error .valueError

/-- `QueryBuilder.set` (src/iceaxe/queries.py lines 442-452): requires a
column and appends the pair to the (shared) `update_values` list in
place. -/
def set (b : Builder) (column : Obj) (value : Obj) (h : PyHeap) :
    Except Err (Builder × PyHeap) :=
  if isColumn column then .ok (b, h.extend b.updateRef [.pair column value])
  else .error .valueError

/-- `QueryBuilder.limit` (src/iceaxe/queries.py lines 454-482). -/
def limit (b : Builder) (value : Int) : Builder :=
  { b with limitValue := some value }

/-- `QueryBuilder.offset` (src/iceaxe/queries.py lines 484-514). -/
def offset (b : Builder) (value : Int) : Builder :=
  { b with offsetValue := some value }

/-- `QueryBuilder.group_by` (src/iceaxe/queries.py lines 516-562):
requires columns; rebinds `group_by_fields` to the freshly built list
(no in-place mutation of the previous list). -/
def groupBy (b : Builder) (fields : List Obj) (h : PyHeap) :
    Except Err (Builder × PyHeap) :=
  if fields.all isColumn then
    let (i, h) := h.alloc fields
    .ok ({ b with groupByRef := i }, h)
  else .error .valueError

/-- `QueryBuilder.having` (src/iceaxe/queries.py lines 564-606): requires
comparisons and extends the (shared) `having_conditions` list in
place. -/
def having (b : Builder) (conditions : List Obj) (h : PyHeap) :
    Except Err (Builder × PyHeap) :=
  if conditions.all isComparison then
    .ok (b, h.extend b.havingRef conditions)
  else .error .valueError

/-- `QueryBuilder.distinct_on` (src/iceaxe/queries.py lines 608-642):
requires columns; rebinds `distinct_on_fields` to a freshly built list of
rendered fields. -/
def distinctOn (b : Builder) (fields : List Obj) (h : PyHeap) :
    Except Err (Builder × PyHeap) :=
  if fields.all isColumn then
    let lits := fields.filterMap fun f =>
      match f with
      | .column c => some (Obj.str (colToQuery c))
      | _ => Option.none
    let (i, h) := h.alloc lits
    .ok ({ b with distinctRef := i }, h)
  else .error .valueError

/-- `QueryBuilder.text` (src/iceaxe/queries.py lines 644-681): stores the
raw query and rebinds `text_variables` to a fresh list of the given
variables. -/
def text (b : Builder) (query : Str) (vs : List Obj) (h : PyHeap) :
    Builder × PyHeap :=
  let (i, h) := h.alloc vs
  ({ b with textQuery := some query, textVarsRef := i }, h)

end QueryBuilder

/-- `and_` (src/iceaxe/queries.py lines 801-830): validates every
condition and wraps them in an AND comparison group. -/
def andGroup (conditions : List Obj) : Except Err Obj :=
  if conditions.all fun c => isComparison c || isComparisonGroup c then
    .ok (.group .AND conditions)
  else .error .valueError

/-- `or_` (src/iceaxe/queries.py lines 833-864): validates every
condition and wraps them in an OR comparison group. -/
def orGroup (conditions : List Obj) : Except Err Obj :=
  if conditions.all fun c => isComparison c || isComparisonGroup c then
    .ok (.group .OR conditions)
  else .error .valueError

/-- Renders the elements of a comparison group in order with the given
renderer for the elements, threading the parameter index by the number of
values emitted so far; each element that is itself a group is wrapped in
parentheses. -/
def condElemsToQueryW (f : Obj → Nat → Except Err (List Frag × List Obj))
    (es : List Obj) (start : Nat) :
    Except Err (List (List Frag) × List Obj) :=
  match es with
  | [] => .ok ([], [])
  | e :: rest =>
      match f e start with
      | .error er => .error er
      | .ok (fe, ve) =>
        let fe := if isComparisonGroup e then Frag.s ['('] :: fe ++ [Frag.s [')']] else fe
        match condElemsToQueryW f rest (start + ve.length) with
        | .error er => .error er
        | .ok (fr, vr) => .ok (fe :: fr, ve ++ vr)

/-- Modelled from the spec: `FieldComparison.to_query` /
`FieldComparisonGroup.to_query` with a threaded starting parameter index
(§4.2, §4.3; the revision of iceaxe/comparison.py that defines these is
absent from the snapshot).  A comparison whose right-hand side is a
column renders both sides without parameterizing; any other right-hand
side appends one parameter value and emits the next placeholder.  Group
elements are joined by the group keyword; nested groups are
parenthesized.  Recursion into group elements spends one unit of the
explicit depth budget, mirroring the interpreter's recursion limit;
nesting deeper than the budget fails as the interpreter would. -/
def condToQueryF (h : PyHeap) : Nat → Obj → Nat →
    Except Err (List Frag × List Obj)
  | 0, _, _ => .error .valueError
  | fuel + 1, o, start =>
    match o with
    | .comp l op r =>
        match objToQueryStr h l with
        | .error e => .error e
        | .ok lq =>
          match r with
          | .column c =>
              .ok ([.s (lq ++ ' ' :: op.value ++ ' ' :: colToQuery c)], [])
          | _ => .ok ([.s (lq ++ ' ' :: op.value ++ [' ']), .p start r], [r])
    | .group g elements =>
        match condElemsToQueryW (condToQueryF h fuel) elements start with
        | .error e => .error e
        | .ok (parts, vs) =>
            .ok (joinFrags (' ' :: g.value ++ [' ']) parts, vs)
    | _ => .error .valueError

/-- The depth budget granted to condition rendering: CPython's default
recursion limit. -/
def condDepthLimit : Nat := 1000

/-- Condition rendering at the full depth budget. -/
def condToQuery (h : PyHeap) (o : Obj) (start : Nat) :
    Except Err (List Frag × List Obj) :=
  condToQueryF h condDepthLimit o start

/-- The SET-components loop of `QueryBuilder.build` for UPDATE queries
(src/iceaxe/queries.py lines 733-737): each pair renders the column, an
equals sign and the next placeholder, appending the value to the
parameter list.  A stored element that is not a (column, value) pair
would fail the attribute access on `column.to_query()`. -/
def buildSetComponents (pairs : List Obj) (nvars : Nat) :
    Except Err (List (List Frag) × List Obj) :=
  match pairs with
  | [] => .ok ([], [])
  | .pair (.column c) v :: rest =>
      match buildSetComponents rest (nvars + 1) with
      | .error e => .error e
      | .ok (comps, vs) =>
          .ok ([Frag.s (colToQuery c ++ " = ".data), Frag.p (nvars + 1) v] :: comps,
               v :: vs)
  | _ :: _ => .error .attributeError

/-- The HAVING loop of `QueryBuilder.build` (src/iceaxe/queries.py lines
766-782): each condition renders `left.literal` (an attribute only
function metadata has), the operator, and either the right-hand side's
literal (function metadata) or the next placeholder with the value
appended to the parameter list. -/
def buildHavingList (h : PyHeap) (conds : List Obj) (nvars : Nat) :
    Except Err (List (List Frag) × List Obj) :=
  match conds with
  | [] => .ok ([], [])
  | .comp l op r :: rest =>
      match l with
      | .fmRef lr =>
          let havingField := (h.readFm lr).literal
          let rstep : List Frag × List Obj :=
            match r with
            | .fmRef rr => ([Frag.s (h.readFm rr).literal], [])
            | _ => ([Frag.p (nvars + 1) r], [r])
          match buildHavingList h rest (nvars + rstep.2.length) with
          | .error e => .error e
          | .ok (frs, vrs) =>
              .ok ((Frag.s (havingField ++ ' ' :: op.value ++ [' ']) :: rstep.1) :: frs,
                   rstep.2 ++ vrs)
      | _ => .error .attributeError
  | _ :: _ => .error .attributeError

/-- The GROUP BY item renderer inside `QueryBuilder.build`
(src/iceaxe/queries.py lines 759-764): quoted table name, dot, quoted
key; a non-column stored value would fail the `root_model` attribute
access. -/
def groupByItem : Obj → Except Err Str
  | .column c => .ok (quoteIdent c.rootModel ++ '.' :: quoteIdent c.key)
  | _ => .error .attributeError

/-- Renders all GROUP BY fields in order, failing on the first
non-column. -/
def groupByItems : List Obj → Except Err (List Str)
  | [] => .ok []
  | f :: rest =>
      match groupByItem f with
      | .error e => .error e
      | .ok it =>
          match groupByItems rest with
          | .error e => .error e
          | .ok its => .ok (it :: its)

namespace QueryBuilder

/-- The head clause of `QueryBuilder.build` (src/iceaxe/queries.py lines
712-746): the SELECT / UPDATE ... SET / DELETE FROM prefix for the query
type, together with the parameters emitted so far (non-empty only for
UPDATE, whose SET right-hand sides are parameterized). -/
def buildHead (b : Builder) (h : PyHeap) :
    Except Err (List Frag × List Obj) :=
  match b.queryType with
  | some QueryType.select =>
      match b.mainModel with
      | Option.none => Except.error Err.valueError
      | some m =>
          let fields := (h.read b.selectFieldsRef).map objStr
          let distinctPart : Str :=
            match h.read b.distinctRef with
            | [] => []
            | ds => " DISTINCT ON (".data ++ joinStr ", ".data (ds.map objStr) ++ [')']
          Except.ok ([Frag.s ("SELECT".data ++ distinctPart ++ ' ' ::
              (joinStr ", ".data fields ++ " FROM ".data ++ quoteIdent m.name))],
            ([] : List Obj))
  | some QueryType.update =>
      match b.mainModel with
      | Option.none => Except.error Err.valueError
      | some m =>
          match buildSetComponents (h.read b.updateRef) 0 with
          | .error e => Except.error e
          | .ok (comps, vs) =>
              Except.ok (Frag.s ("UPDATE ".data ++ quoteIdent m.name ++ " SET ".data)
                :: joinFrags ", ".data comps, vs)
  | some QueryType.delete =>
      match b.mainModel with
      | Option.none => Except.error Err.valueError
      | some m =>
          Except.ok ([Frag.s ("DELETE FROM ".data ++ quoteIdent m.name)],
            ([] : List Obj))
  | Option.none => Except.ok ([], ([] : List Obj))

/-- The join stage of `QueryBuilder.build` (src/iceaxe/queries.py lines
748-749): appends the space-joined stored join clauses. -/
def stageJoin (b : Builder) (h : PyHeap) (fv : List Frag × List Obj) :
    List Frag × List Obj :=
  (fv.1 ++
    (match h.read b.joinRef with
     | [] => []
     | js => [Frag.s (' ' :: joinStr " ".data (js.map objStr))]), fv.2)

/-- The WHERE stage of `QueryBuilder.build` (src/iceaxe/queries.py lines
751-757): wraps the stored conditions in `and_` and renders them starting
at one past the parameters emitted so far. -/
def stageWhere (b : Builder) (h : PyHeap) (fv : List Frag × List Obj) :
    Except Err (List Frag × List Obj) :=
  match h.read b.whereRef with
  | [] => .ok fv
  | wcs =>
      match andGroup wcs with
      | .error e => .error e
      | .ok g =>
          match condToQuery h g (fv.2.length + 1) with
          | .error e => .error e
          | .ok (cfr, cvars) =>
              .ok (fv.1 ++ Frag.s " WHERE ".data :: cfr, fv.2 ++ cvars)

/-- The GROUP BY stage of `QueryBuilder.build` (src/iceaxe/queries.py
lines 759-764). -/
def stageGroup (b : Builder) (h : PyHeap) (fv : List Frag × List Obj) :
    Except Err (List Frag × List Obj) :=
  match h.read b.groupByRef with
  | [] => .ok fv
  | gbs =>
      match groupByItems gbs with
      | .error e => .error e
      | .ok items =>
          .ok (fv.1 ++ [Frag.s (" GROUP BY ".data ++ joinStr ", ".data items)], fv.2)

/-- The HAVING stage of `QueryBuilder.build` (src/iceaxe/queries.py lines
766-782). -/
def stageHaving (b : Builder) (h : PyHeap) (fv : List Frag × List Obj) :
    Except Err (List Frag × List Obj) :=
  match h.read b.havingRef with
  | [] => .ok fv
  | hcs =>
      match buildHavingList h hcs fv.2.length with
      | .error e => .error e
      | .ok (hfrs, hvs) =>
          .ok (fv.1 ++ Frag.s " HAVING ".data :: joinFrags " AND ".data hfrs,
            fv.2 ++ hvs)

/-- The ORDER BY stage of `QueryBuilder.build` (src/iceaxe/queries.py
lines 784-785). -/
def stageOrder (b : Builder) (h : PyHeap) (fv : List Frag × List Obj) :
    List Frag × List Obj :=
  (fv.1 ++
    (match h.read b.orderByRef with
     | [] => []
     | obs => [Frag.s (" ORDER BY ".data ++ joinStr ", ".data (obs.map objStr))]),
   fv.2)

/-- The LIMIT stage of `QueryBuilder.build` (src/iceaxe/queries.py lines
787-788). -/
def stageLimit (b : Builder) (fv : List Frag × List Obj) :
    List Frag × List Obj :=
  (fv.1 ++
    (match b.limitValue with
     | Option.none => []
     | some n => [Frag.s (" LIMIT ".data ++ intChars n)]), fv.2)

/-- The OFFSET stage of `QueryBuilder.build` (src/iceaxe/queries.py lines
790-791). -/
def stageOffset (b : Builder) (fv : List Frag × List Obj) :
    List Frag × List Obj :=
  (fv.1 ++
    (match b.offsetValue with
     | Option.none => []
     | some n => [Frag.s (" OFFSET ".data ++ intChars n)]), fv.2)

/-- The main body of `QueryBuilder.build` (src/iceaxe/queries.py lines
709-793), reached when the text override is not taken: renders the head
clause for the query type, then the join, WHERE, GROUP BY, HAVING,
ORDER BY, LIMIT and OFFSET stages in source order. -/
def buildMain (b : Builder) (h : PyHeap) :
    Except Err (List Frag × List Obj) :=
  match buildHead b h with
  | .error e => .error e
  | .ok fv =>
      match stageWhere b h (stageJoin b h fv) with
      | .error e => .error e
      | .ok fv1 =>
          match stageGroup b h fv1 with
          | .error e => .error e
          | .ok fv2 =>
              match stageHaving b h fv2 with
              | .error e => .error e
              | .ok fv3 =>
                  .ok (stageOffset b (stageLimit b (stageOrder b h fv3)))

/-- `QueryBuilder.build` (src/iceaxe/queries.py lines 683-793).  The SQL
is returned as a fragment list whose rendering is the Python string; the
Python truthiness test `if self.text_query:` takes the raw-text override
only when the stored query string is non-empty. -/
def build (b : Builder) (h : PyHeap) : Except Err (List Frag × List Obj) :=
  match b.textQuery with
  | some q =>
      if q.isEmpty then buildMain b h
      else .ok ([.s q], h.read b.textVarsRef)
  | Option.none => buildMain b h

/-- `QueryBuilder.build` observed at the string level: the rendered SQL
text paired with the parameter list, exactly the tuple the Python method
returns. -/
def buildStr (b : Builder) (h : PyHeap) : Except Err (Str × List Obj) :=
  (build b h).map fun fsvs => (renderFrags fsvs.1, fsvs.2)

end QueryBuilder

/-!
## Expression layer: `ComparisonBase` and `FunctionBuilder`
-/

/-- Modelled from the spec: the concrete `_compare` of a column field
(iceaxe/base.py is absent from the snapshot): it builds
`FieldComparison(left=self, comparison=comparison, right=other)`, as the
repo's own tests assert (src/iceaxe/__tests__/test_comparison.py,
test_compare). -/
def fieldCompare (self : Obj) (comparison : ComparisonType) (other : Obj) : Obj :=
  .comp self comparison other

namespace ComparisonBase

/-- `ComparisonBase.__eq__` (src/iceaxe/comparison.py lines 19-20):
unconditionally `self._compare(ComparisonType.EQ, other)` — this revision
of the file performs no null-sentinel rewriting. -/
def eq (self other : Obj) : Obj := fieldCompare self .EQ other

/-- `ComparisonBase.__ne__` (src/iceaxe/comparison.py lines 22-23). -/
def ne (self other : Obj) : Obj := fieldCompare self .NE other

/-- `ComparisonBase.__lt__` (src/iceaxe/comparison.py lines 25-26). -/
def lt (self other : Obj) : Obj := fieldCompare self .LT other

/-- `ComparisonBase.__le__` (src/iceaxe/comparison.py lines 28-29). -/
def le (self other : Obj) : Obj := fieldCompare self .LE other

/-- `ComparisonBase.__gt__` (src/iceaxe/comparison.py lines 31-32). -/
def gt (self other : Obj) : Obj := fieldCompare self .GT other

/-- `ComparisonBase.__ge__` (src/iceaxe/comparison.py lines 34-35). -/
def ge (self other : Obj) : Obj := fieldCompare self .GE other

/-- `ComparisonBase.in_` (src/iceaxe/comparison.py lines 37-38). -/
def inOp (self other : Obj) : Obj := fieldCompare self .IN other

/-- `ComparisonBase.not_in` (src/iceaxe/comparison.py lines 40-41). -/
def notIn (self other : Obj) : Obj := fieldCompare self .NOT_IN other

/-- `ComparisonBase.like` (src/iceaxe/comparison.py lines 43-44). -/
def like (self other : Obj) : Obj := fieldCompare self .LIKE other

end ComparisonBase

/-- `FunctionBuilder._column_to_metadata` (src/iceaxe/functions.py lines
759-775): an argument that is already function metadata is returned
as-is — the very same object, not a copy; a column is wrapped in a fresh
metadata object; anything else raises ValueError. -/
def columnToMetadata (h : PyHeap) (field : Obj) : Except Err (Nat × PyHeap) :=
  match field with
  | .fmRef r => .ok (r, h)
  | .column c =>
      .ok (h.allocFm
        { literal := colToQuery c, originalField := some c, localName := Option.none })
  | _ => .error .valueError

/-- The in-place literal rewrite each function builder performs on the
metadata object obtained from `_column_to_metadata`:
`metadata.literal = QueryLiteral(f"...{metadata.literal}...")`. -/
def fmWrap (h : PyHeap) (r : Nat) (pre post : Str) : PyHeap :=
  h.writeFm r { h.readFm r with literal := pre ++ (h.readFm r).literal ++ post }

namespace FunctionBuilder

/-- `FunctionBuilder.count` (src/iceaxe/functions.py lines 84-103). -/
def count (h : PyHeap) (field : Obj) : Except Err (Obj × PyHeap) :=
  match columnToMetadata h field with
  | .error e => .error e
  | .ok (r, h) => .ok (.fmRef r, fmWrap h r "count(".data [')'])

/-- `FunctionBuilder.distinct` (src/iceaxe/functions.py lines 105-124). -/
def distinct (h : PyHeap) (field : Obj) : Except Err (Obj × PyHeap) :=
  match columnToMetadata h field with
  | .error e => .error e
  | .ok (r, h) => .ok (.fmRef r, fmWrap h r "distinct ".data [])

/-- `FunctionBuilder.sum` (src/iceaxe/functions.py lines 126-146). -/
def sum (h : PyHeap) (field : Obj) : Except Err (Obj × PyHeap) :=
  match columnToMetadata h field with
  | .error e => .error e
  | .ok (r, h) => .ok (.fmRef r, fmWrap h r "sum(".data [')'])

/-- `FunctionBuilder.avg` (src/iceaxe/functions.py lines 148-168). -/
def avg (h : PyHeap) (field : Obj) : Except Err (Obj × PyHeap) :=
  match columnToMetadata h field with
  | .error e => .error e
  | .ok (r, h) => .ok (.fmRef r, fmWrap h r "avg(".data [')'])

/-- `FunctionBuilder.lower` (src/iceaxe/functions.py lines 513-522). -/
def lower (h : PyHeap) (field : Obj) : Except Err (Obj × PyHeap) :=
  match columnToMetadata h field with
  | .error e => .error e
  | .ok (r, h) => .ok (.fmRef r, fmWrap h r "lower(".data [')'])

end FunctionBuilder

/-!
## Schema object model (src/iceaxe/schemas/db_stubs.py)
-/

/-- Errors raised by the schema object layer. -/
inductive SchemaErr where
  | valueError
  | notImplementedError
  | assertionError
  deriving DecidableEq, Repr

/-- Modelled from the spec: `ConstraintType` (§6; iceaxe/schemas/actions.py
is absent from the snapshot). -/
inductive ConstraintType where
  | PRIMARY_KEY | FOREIGN_KEY | UNIQUE | CHECK | INDEX
  deriving DecidableEq, Repr

/-- Modelled from the spec: `ForeignKeyConstraint`, the `fk_spec` carried
by a foreign-key constraint node (§3; iceaxe/schemas/actions.py is absent
from the snapshot). -/
structure ForeignKeyConstraint where
  targetTable : String
  targetColumns : Finset String
  deriving DecidableEq

/-- Modelled from the spec: `CheckConstraint`, the `check_spec` carried by
a check constraint node (§3; iceaxe/schemas/actions.py is absent from the
snapshot). -/
structure CheckConstraint where
  checkCondition : String
  deriving DecidableEq

/-- Modelled from the spec: the primitive actions of the Action Recorder
emitted by constraint nodes (§6 action table; iceaxe/schemas/actions.py
is absent from the snapshot).  The recorder is an append-only list of
these. -/
inductive DBAction where
  | addConstraint (tableName : String) (constraint : ConstraintType)
      (constraintName : String) (columns : List String)
      (constraintArgs : Option (ForeignKeyConstraint ⊕ CheckConstraint))
  | dropConstraint (tableName : String) (constraintName : String)
  | addIndex (tableName : String) (columns : List String) (indexName : String)
  | dropIndex (tableName : String) (indexName : String)
  deriving DecidableEq

/-- `DBConstraint` (src/iceaxe/schemas/db_stubs.py lines 190-214); its
`constraint_name` field is declared with `Field(exclude=True)` (line
192), so it is excluded from `model_dump`.  `columns` is a frozenset. -/
structure DBConstraint where
  tableName : String
  constraintName : String
  columns : Finset String
  constraintType : ConstraintType
  foreignKeyConstraint : Option ForeignKeyConstraint
  checkConstraint : Option CheckConstraint
  deriving DecidableEq

/-- `model_dump()` of a `DBConstraint`: all fields except the excluded
`constraint_name`. -/
structure DBConstraintDump where
  tableName : String
  columns : Finset String
  constraintType : ConstraintType
  foreignKeyConstraint : Option ForeignKeyConstraint
  checkConstraint : Option CheckConstraint
  deriving DecidableEq

/-- The dump of a constraint node. -/
def DBConstraint.dump (c : DBConstraint) : DBConstraintDump :=
  ⟨c.tableName, c.columns, c.constraintType, c.foreignKeyConstraint, c.checkConstraint⟩

/-- `list(self.columns)` on the frozenset, modelled canonically as the
sorted element list. -/
def DBConstraint.columnList (c : DBConstraint) : List String :=
  c.columns.sort (· ≤ ·)

/-- `DBConstraint.create` (src/iceaxe/schemas/db_stubs.py lines 246-277):
dispatches on the constraint kind; the `assert` on the FK/CHECK spec is
modelled as `assertionError`. -/
def DBConstraint.create (c : DBConstraint) : Except SchemaErr (List DBAction) :=
  match c.constraintType with
  | .FOREIGN_KEY =>
      match c.foreignKeyConstraint with
      | some fk =>
          .ok [.addConstraint c.tableName .FOREIGN_KEY c.constraintName
                c.columnList (some (.inl fk))]
      | Option.none => .error .assertionError
  | .CHECK =>
      match c.checkConstraint with
      | some ck =>
          .ok [.addConstraint c.tableName .CHECK c.constraintName
                c.columnList (some (.inr ck))]
      | Option.none => .error .assertionError
  | .INDEX => .ok [.addIndex c.tableName c.columnList c.constraintName]
  | t => .ok [.addConstraint c.tableName t c.constraintName c.columnList Option.none]

/-- `DBConstraint.destroy` (src/iceaxe/schemas/db_stubs.py lines
279-289). -/
def DBConstraint.destroy (c : DBConstraint) : List DBAction :=
  match c.constraintType with
  | .INDEX => [.dropIndex c.tableName c.constraintName]
  | _ => [.dropConstraint c.tableName c.constraintName]

/-- `DBConstraint.migrate` (src/iceaxe/schemas/db_stubs.py lines
291-313): raises NotImplementedError when the constraint types differ —
before recording any action; otherwise compares the two `model_dump`s
key by key and, exactly when some dumped field differs, destroys and
recreates `self`.  Returns the actions recorded up to any raise, and the
raised error if any. -/
def DBConstraint.migrate (self previous : DBConstraint) :
    List DBAction × Option SchemaErr :=
  if self.constraintType ≠ previous.constraintType then
    ([], some .notImplementedError)
  else if self.dump ≠ previous.dump then
    match self.create with
    | .ok cacts => (self.destroy ++ cacts, Option.none)
    | .error e => (self.destroy, some e)
  else ([], Option.none)

/-- `DBType` (src/iceaxe/schemas/db_stubs.py lines 328-376): a named enum
type with a frozenset of values and the frozenset of `(table, column)`
pairs referencing it. -/
structure DBType where
  name : String
  values : Finset String
  referenceColumns : Finset (String × String)
  deriving DecidableEq

/-- `DBType.merge` (src/iceaxe/schemas/db_stubs.py lines 363-376): raises
ValueError unless name and values are identical, and otherwise returns a
node with the union of the reference-column sets. -/
def DBType.merge (self other : DBType) : Except SchemaErr DBType :=
  if self.name ≠ other.name ∨ self.values ≠ other.values then
    .error .valueError
  else
    .ok { name := self.name, values := self.values,
          referenceColumns := self.referenceColumns ∪ other.referenceColumns }

/-!
## Placeholder tokens of a SQL string

A placeholder token is a dollar sign immediately followed by a maximal
non-empty run of decimal digits.  `extractPlaceholders` returns the
numeric values of all placeholder tokens of a string, in order of
occurrence, via a three-state scanner.
-/

/-- Scanner state: plain text, just after a dollar sign, or inside the
digit run of a placeholder with the accumulated value. -/
inductive ScanState where
  | plain
  | dollar
  | num (acc : Nat)
  deriving DecidableEq

/-- The placeholder scanner. -/
def extractAux : ScanState → Str → List Nat
  | .plain, [] => []
  | .dollar, [] => []
  | .num acc, [] => [acc]
  | .plain, c :: rest =>
      if c = '$' then extractAux .dollar rest else extractAux .plain rest
  | .dollar, c :: rest =>
      if c.isDigit then extractAux (.num (c.toNat - 48)) rest
      else if c = '$' then extractAux .dollar rest
      else extractAux .plain rest
  | .num acc, c :: rest =>
      if c.isDigit then extractAux (.num (10 * acc + (c.toNat - 48))) rest
      else if c = '$' then acc :: extractAux .dollar rest
      else acc :: extractAux .plain rest

/-- The placeholder tokens `$k` of a SQL string, in order of occurrence. -/
def extractPlaceholders (s : Str) : List Nat := extractAux .plain s

/-- A string free of dollar signs (contains no placeholder token). -/
def noDollar (s : Str) : Bool := s.all fun c => c ≠ '$'

/-- A string that does not begin with a decimal digit (appending it to a
placeholder cannot extend the digit run). -/
def startsOk : Str → Bool
  | [] => true
  | c :: _ => ! c.isDigit

/-- Well-formedness of a fragment list: every text fragment is free of
dollar signs and does not begin with a digit. -/
def fragsOk : List Frag → Bool
  | [] => true
  | .s t :: rest => noDollar t && startsOk t && fragsOk rest
  | .p _ _ :: rest => fragsOk rest

theorem noDollar_append (a b : Str) :
    noDollar (a ++ b) = (noDollar a && noDollar b) := by
  simp [noDollar, List.all_append]

theorem startsOk_append (a b : Str) (ha : startsOk a = true)
    (hb : startsOk b = true) : startsOk (a ++ b) = true := by
  cases a with
  | nil => simpa using hb
  | cons c cs => simpa [startsOk] using ha

theorem startsOk_append_left (a b : Str) (h : startsOk a = true)
    (hne : a ≠ []) : startsOk (a ++ b) = true := by
  cases a with
  | nil => exact absurd rfl hne
  | cons c cs => simpa [startsOk] using h

theorem fragsOk_append (f1 f2 : List Frag) (h1 : fragsOk f1 = true)
    (h2 : fragsOk f2 = true) : fragsOk (f1 ++ f2) = true := by
  induction f1 with
  | nil => simpa using h2
  | cons f fs ih =>
    cases f with
    | s t =>
        simp only [fragsOk, Bool.and_eq_true] at h1
        simpa [fragsOk, h1.1.1, h1.1.2] using ih h1.2
    | p k v => simpa [fragsOk] using ih (by simpa [fragsOk] using h1)

theorem fragParams_append (f1 f2 : List Frag) :
    fragParams (f1 ++ f2) = fragParams f1 ++ fragParams f2 := by
  induction f1 with
  | nil => rfl
  | cons f fs ih => cases f <;> simp [fragParams, ih]

/-- Scanning a dollar-free string from the plain state finds nothing. -/
theorem extractAux_plain_noDollar (a t : Str) (h : noDollar a = true) :
    extractAux .plain (a ++ t) = extractAux .plain t := by
  induction a with
  | nil => rfl
  | cons c cs ih =>
    simp only [noDollar, List.all_cons, Bool.and_eq_true, decide_eq_true_eq] at h
    simpa [extractAux, h.1] using ih (by simpa [noDollar] using h.2)

/-- Leaving the digit run of a placeholder emits the accumulated value
and resumes the plain scan, provided the rest does not begin with a
digit. -/
theorem extractAux_num_exit (acc : Nat) (t : Str) (h : startsOk t = true) :
    extractAux (.num acc) t = acc :: extractAux .plain t := by
  cases t with
  | nil => rfl
  | cons c cs =>
    simp only [startsOk, Bool.not_eq_true'] at h
    by_cases hc : c = '$'
    · subst hc
      simp [extractAux]
    · simp [extractAux, h, hc]

/-- Consuming a run of decimal digits folds them into the accumulator. -/
theorem extractAux_num_run (ds : List Nat) (acc : Nat) (t : Str)
    (h : ∀ d ∈ ds, d < 10) :
    extractAux (.num acc) (ds.map digitToChar ++ t)
      = extractAux (.num (ds.foldl (fun x d => 10 * x + d) acc)) t := by
  induction ds generalizing acc with
  | nil => rfl
  | cons d ds ih =>
    have hd : d < 10 := h d (by simp)
    have hdig : (digitToChar d).isDigit = true := by
      interval_cases d <;> decide
    have hval : (digitToChar d).toNat - 48 = d := by
      interval_cases d <;> decide
    simp only [List.map_cons, List.cons_append, extractAux, hdig, if_true, hval,
      List.foldl_cons]
    exact ih _ fun x hx => h x (by simp [hx])

theorem natDigits_ne_nil (n : Nat) : natDigits n ≠ [] := by
  rw [natDigits_eq]
  split <;> simp

theorem natDigits_lt (n : Nat) : ∀ d ∈ natDigits n, d < 10 := by
  induction n using Nat.strong_induction_on with
  | _ n ih =>
    rw [natDigits_eq]
    split
    · next h => intro d hd; simp at hd; omega
    · next h =>
        intro d hd
        simp only [List.mem_append, List.mem_singleton] at hd
        rcases hd with hd | hd
        · exact ih (n / 10) (Nat.div_lt_self (by omega) (by omega)) d hd
        · subst hd; exact Nat.mod_lt _ (by omega)

theorem parseD_natDigits (n : Nat) :
    (natDigits n).foldl (fun x d => 10 * x + d) 0 = n := by
  induction n using Nat.strong_induction_on with
  | _ n ih =>
    rw [natDigits_eq]
    split
    · simp
    · next h =>
        rw [List.foldl_append, ih (n / 10) (Nat.div_lt_self (by omega) (by omega))]
        simp only [List.foldl_cons, List.foldl_nil]
        omega

/-- After a dollar sign, the decimal rendering of `k` scans to the token
`k`, provided what follows does not begin with a digit. -/
theorem extractAux_dollar_nat (k : Nat) (t : Str) (h : startsOk t = true) :
    extractAux .dollar (natChars k ++ t) = k :: extractAux .plain t := by
  obtain ⟨d, ds, hds⟩ : ∃ d ds, natDigits k = d :: ds := by
    cases hnd : natDigits k with
    | nil => exact absurd hnd (natDigits_ne_nil k)
    | cons d ds => exact ⟨d, ds, rfl⟩
  have hall : ∀ x ∈ d :: ds, x < 10 := by rw [← hds]; exact natDigits_lt k
  have hd : d < 10 := hall d (by simp)
  have hdig : (digitToChar d).isDigit = true := by interval_cases d <;> decide
  have hval : (digitToChar d).toNat - 48 = d := by interval_cases d <;> decide
  have hrun := extractAux_num_run ds d t fun x hx => hall x (by simp [hx])
  have hparse : ds.foldl (fun x y => 10 * x + y) d = k := by
    have := parseD_natDigits k
    rw [hds] at this
    simpa using this
  rw [natChars, hds, List.map_cons, List.cons_append]
  simp only [extractAux, hdig, if_true, hval]
  rw [hrun, hparse, extractAux_num_exit k t h]

/-- The rendering of a well-formed fragment list never begins with a
digit. -/
theorem startsOk_render (fs : List Frag) (h : fragsOk fs = true) :
    startsOk (renderFrags fs) = true := by
  induction fs with
  | nil => rfl
  | cons f rest ih =>
    cases f with
    | s t =>
        simp only [fragsOk, Bool.and_eq_true] at h
        exact startsOk_append t (renderFrags rest) h.1.2 (ih h.2)
    | p k v => simp [renderFrags, startsOk]

/-- The placeholder tokens of the rendering of a well-formed fragment
list are exactly its parameter indices, in order. -/
theorem extract_render (fs : List Frag) (h : fragsOk fs = true) :
    extractPlaceholders (renderFrags fs) = (fragParams fs).map Prod.fst := by
  induction fs with
  | nil => rfl
  | cons f rest ih =>
    cases f with
    | s t =>
        simp only [fragsOk, Bool.and_eq_true] at h
        rw [renderFrags, fragParams, extractPlaceholders,
          extractAux_plain_noDollar t _ h.1.1]
        exact ih h.2
    | p k v =>
        have h2 : fragsOk rest = true := by simpa [fragsOk] using h
        rw [renderFrags, fragParams, extractPlaceholders]
        simp only [extractAux, if_pos rfl, List.map_cons]
        rw [show (extractAux ScanState.dollar (natChars k ++ renderFrags rest))
              = k :: extractAux .plain (renderFrags rest) from
            extractAux_dollar_nat k _ (startsOk_render rest h2)]
        exact congrArg (k :: ·) (ih h2)

/-!
## Cleanliness: dollar-free identifiers

A builder state is clean when every identifier and every stored rendered
fragment contains no dollar sign (and does not begin with a digit), so
the dollar-prefixed tokens of the rendered SQL are exactly the emitted
placeholders.
-/

/-- A dollar-free column reference. -/
def cleanField (c : DBField) : Bool := noDollar c.rootModel && noDollar c.key

/-- A clean comparison operand: rendered operands must be dollar-free and
not digit-initial; operands that are only ever parameter values are
unconstrained. -/
def cleanOperand (h : PyHeap) : Obj → Bool
  | .column c => cleanField c
  | .fmRef r => noDollar (h.readFm r).literal && startsOk (h.readFm r).literal
  | _ => true

/-- A clean WHERE condition: every rendered part is dollar-free.  The
depth budget matches the renderer's, so that a condition certified clean
is certified at every depth the renderer reaches. -/
def cleanCondF (h : PyHeap) : Nat → Obj → Bool
  | 0, _ => false
  | fuel + 1, o =>
    match o with
    | .comp l _ r =>
        cleanOperand h l &&
        (match r with
         | .column c => cleanField c
         | _ => true)
    | .group _ es => es.all (cleanCondF h fuel)
    | _ => true

/-- A clean WHERE condition at the full depth budget. -/
def cleanCond (h : PyHeap) (o : Obj) : Bool := cleanCondF h condDepthLimit o

/-- Clean list of conditions: clean as the body of a top-level group
(builders always wrap the stored conditions in one AND group). -/
def cleanCondList (h : PyHeap) (es : List Obj) : Bool :=
  cleanCond h (.group .AND es)

/-- A clean stored rendered field (the builder stores rendered strings in
its `select_fields`, `distinct_on_fields`, `join_clauses` and
`order_by_clauses` cells). -/
def cleanStored : Obj → Bool
  | .str s => noDollar s && startsOk s
  | _ => true

/-- A clean stored GROUP BY field. -/
def cleanGroupByField : Obj → Bool
  | .column c => cleanField c
  | _ => true

/-- A clean stored HAVING condition. -/
def cleanHavingCond (h : PyHeap) : Obj → Bool
  | .comp l _ r =>
      cleanOperand h l && cleanOperand h r
  | _ => true

/-- A clean stored `(column, value)` update pair. -/
def cleanUpdatePair : Obj → Bool
  | .pair (.column c) _ => cleanField c
  | _ => true

/-- Cleanliness of a whole builder state: every identifier and stored
rendered fragment reachable from the builder is dollar-free. -/
def cleanBuilder (b : Builder) (h : PyHeap) : Bool :=
  (h.read b.selectFieldsRef).all cleanStored &&
  (h.read b.distinctRef).all cleanStored &&
  (h.read b.joinRef).all cleanStored &&
  (h.read b.orderByRef).all cleanStored &&
  cleanCondList h (h.read b.whereRef) &&
  (h.read b.groupByRef).all cleanGroupByField &&
  (h.read b.havingRef).all (cleanHavingCond h) &&
  (h.read b.updateRef).all cleanUpdatePair &&
  (match b.mainModel with
   | some m => noDollar m.name
   | Option.none => true)

theorem noDollar_iff (s : Str) : noDollar s = true ↔ ∀ c ∈ s, c ≠ '$' := by
  simp [noDollar]

theorem noDollar_quoteIdent (s : Str) (h : noDollar s = true) :
    noDollar (quoteIdent s) = true := by
  rw [noDollar_iff] at h ⊢
  intro c hc
  simp only [quoteIdent, List.mem_cons, List.mem_append, List.mem_singleton] at hc
  rcases hc with rfl | hc | rfl | hc
  · decide
  · exact h c hc
  · decide
  · exact absurd hc (List.not_mem_nil c)

theorem startsOk_quoteIdent (s : Str) : startsOk (quoteIdent s) = true := by
  simp [quoteIdent, startsOk]

theorem noDollar_colToQuery (c : DBField) (h : cleanField c = true) :
    noDollar (colToQuery c) = true := by
  simp only [cleanField, Bool.and_eq_true] at h
  have h1 := noDollar_quoteIdent _ h.1
  have h2 := noDollar_quoteIdent _ h.2
  rw [noDollar_iff] at h1 h2 ⊢
  intro x hx
  simp only [colToQuery, List.mem_append, List.mem_cons] at hx
  rcases hx with hx | rfl | hx
  · exact h1 x hx
  · decide
  · exact h2 x hx

theorem startsOk_colToQuery (c : DBField) : startsOk (colToQuery c) = true := by
  simp [colToQuery, quoteIdent, startsOk]

theorem opValue_clean (op : ComparisonType) :
    noDollar op.value = true ∧ startsOk op.value = true := by
  cases op <;> exact ⟨by decide, by decide⟩

theorem groupValue_clean (g : ComparisonGroupType) :
    noDollar g.value = true ∧ startsOk g.value = true := by
  cases g <;> exact ⟨by decide, by decide⟩

theorem noDollar_joinStr (sep : Str) (parts : List Str)
    (hsep : noDollar sep = true) (hp : ∀ x ∈ parts, noDollar x = true) :
    noDollar (joinStr sep parts) = true := by
  induction parts with
  | nil => rfl
  | cons x rest ih =>
    cases rest with
    | nil => exact hp x (by simp)
    | cons y r =>
        have hx := hp x (by simp)
        have hrest := ih fun z hz => hp z (List.mem_cons_of_mem x hz)
        simp [joinStr, noDollar_append, hx, hsep, hrest]

/-!
## The placeholder invariant

`PFrag fs vs i` says: the fragment list `fs` is well formed and its
parameter placeholders are numbered consecutively from `i`, bound in
order to the values `vs`.
-/

/-- The placeholder invariant for a fragment list. -/
def PFrag (fs : List Frag) (vs : List Obj) (i : Nat) : Prop :=
  fragsOk fs = true ∧ fragParams fs = (List.range' i vs.length).zip vs

theorem noDollar_cons (c : Char) (s : Str) :
    noDollar (c :: s) = (decide (c ≠ '$') && noDollar s) := by
  simp [noDollar]

theorem noDollar_nil : noDollar [] = true := rfl

theorem range'_concat (i a b : Nat) :
    List.range' i a ++ List.range' (i + a) b = List.range' i (a + b) := by
  have h := List.range'_append i a b 1
  rw [one_mul] at h
  rw [Nat.add_comm b a] at h
  exact h

theorem PFrag_nil (i : Nat) : PFrag [] [] i := by
  constructor <;> rfl

theorem PFrag_text (t : Str) (i : Nat) (h1 : noDollar t = true)
    (h2 : startsOk t = true) : PFrag [.s t] [] i := by
  refine ⟨?_, rfl⟩
  simp [fragsOk, h1, h2]

theorem PFrag_param (v : Obj) (i : Nat) : PFrag [.p i v] [v] i := by
  refine ⟨rfl, ?_⟩
  simp [fragParams, List.range'_one]

theorem PFrag_append (f1 f2 : List Frag) (v1 v2 : List Obj) (i : Nat)
    (h1 : PFrag f1 v1 i) (h2 : PFrag f2 v2 (i + v1.length)) :
    PFrag (f1 ++ f2) (v1 ++ v2) i := by
  obtain ⟨ho1, hp1⟩ := h1
  obtain ⟨ho2, hp2⟩ := h2
  refine ⟨fragsOk_append _ _ ho1 ho2, ?_⟩
  rw [fragParams_append, hp1, hp2, List.length_append,
    ← range'_concat i v1.length v2.length,
    List.zip_append (by simp)]

theorem PFrag_textHead (t : Str) (fs : List Frag) (vs : List Obj) (i : Nat)
    (h1 : noDollar t = true) (h2 : startsOk t = true)
    (h : PFrag fs vs i) : PFrag (Frag.s t :: fs) vs i := by
  have := PFrag_append [.s t] fs [] vs i (PFrag_text t i h1 h2) (by simpa using h)
  simpa using this

theorem PFrag_wrap (x y : Str) (fs : List Frag) (vs : List Obj) (i : Nat)
    (hx1 : noDollar x = true) (hx2 : startsOk x = true)
    (hy1 : noDollar y = true) (hy2 : startsOk y = true)
    (h : PFrag fs vs i) : PFrag (Frag.s x :: fs ++ [Frag.s y]) vs i := by
  have h2 := PFrag_append fs [.s y] vs [] i h
    (by simpa using PFrag_text y (i + vs.length) hy1 hy2)
  have h3 := PFrag_textHead x _ _ i hx1 hx2 (by simpa using h2)
  simpa using h3

theorem objToQueryStr_clean (h : PyHeap) (l : Obj) (lq : Str)
    (hc : cleanOperand h l = true) (hl : objToQueryStr h l = .ok lq) :
    noDollar lq = true ∧ startsOk lq = true := by
  cases l
  case column c =>
    simp only [objToQueryStr, Except.ok.injEq] at hl
    subst hl
    exact ⟨noDollar_colToQuery c (by simpa [cleanOperand] using hc),
      startsOk_colToQuery c⟩
  case fmRef r =>
    simp only [objToQueryStr, Except.ok.injEq] at hl
    subst hl
    simpa [cleanOperand, Bool.and_eq_true] using hc
  all_goals simp [objToQueryStr] at hl

theorem condElemsW_cons_shape
    (f : Obj → Nat → Except Err (List Frag × List Obj))
    (e : Obj) (es : List Obj) (i : Nat)
    (parts : List (List Frag)) (vs : List Obj)
    (hok : condElemsToQueryW f (e :: es) i = .ok (parts, vs)) :
    ∃ p ps, parts = p :: ps := by
  simp only [condElemsToQueryW] at hok
  cases hq : f e i with
  | error er => rw [hq] at hok; exact absurd hok (by simp)
  | ok fv =>
    obtain ⟨fe, ve⟩ := fv
    rw [hq] at hok
    simp only [] at hok
    cases hr : condElemsToQueryW f es (i + ve.length) with
    | error er => rw [hr] at hok; exact absurd hok (by simp)
    | ok fv2 =>
      obtain ⟨fr, vr⟩ := fv2
      rw [hr] at hok
      simp only [Except.ok.injEq, Prod.mk.injEq] at hok
      exact ⟨_, fr, hok.1.symm⟩

theorem cleanCondF_comp (h : PyHeap) (fuel : Nat) (l : Obj)
    (op : ComparisonType) (r : Obj) :
    cleanCondF h (fuel + 1) (.comp l op r) =
      (cleanOperand h l &&
        (match r with | .column c => cleanField c | _ => true)) := rfl

theorem cleanCondF_group (h : PyHeap) (fuel : Nat) (g : ComparisonGroupType)
    (es : List Obj) :
    cleanCondF h (fuel + 1) (.group g es) = es.all (cleanCondF h fuel) := rfl

theorem cleanCond_group (h : PyHeap) (g : ComparisonGroupType) (es : List Obj) :
    cleanCond h (.group g es) = cleanCondList h es := rfl

/-- The group-element renderer joined with any clean separator satisfies
the placeholder invariant, provided the element renderer does so on clean
elements. -/
theorem condElemsW_spec (f : Obj → Nat → Except Err (List Frag × List Obj))
    (cl : Obj → Bool)
    (hf : ∀ o i fs vs, cl o = true → f o i = .ok (fs, vs) → PFrag fs vs i)
    (sep : Str) (hsep1 : noDollar sep = true) (hsep2 : startsOk sep = true) :
    ∀ (es : List Obj) (i : Nat) (parts : List (List Frag)) (vs : List Obj),
    es.all cl = true →
    condElemsToQueryW f es i = .ok (parts, vs) →
    PFrag (joinFrags sep parts) vs i := by
  intro es
  induction es with
  | nil =>
    intro i parts vs _ hok
    simp only [condElemsToQueryW, Except.ok.injEq, Prod.mk.injEq] at hok
    obtain ⟨rfl, rfl⟩ := hok
    simpa [joinFrags] using PFrag_nil i
  | cons e rest ih =>
    intro i parts vs hc hok
    simp only [condElemsToQueryW] at hok
    cases hq : f e i with
    | error er => rw [hq] at hok; exact absurd hok (by simp)
    | ok fv =>
      obtain ⟨fe, ve⟩ := fv
      rw [hq] at hok
      simp only [] at hok
      cases hr : condElemsToQueryW f rest (i + ve.length) with
      | error er => rw [hr] at hok; exact absurd hok (by simp)
      | ok fv2 =>
        obtain ⟨fr, vr⟩ := fv2
        rw [hr] at hok
        simp only [Except.ok.injEq, Prod.mk.injEq] at hok
        obtain ⟨rfl, rfl⟩ := hok
        have hcl : cl e = true ∧ rest.all cl = true := by
          rw [List.all_cons, Bool.and_eq_true] at hc
          exact hc
        have hfe := hf e i fe ve hcl.1 hq
        have hfe2 : PFrag (if isComparisonGroup e = true then
            Frag.s ['('] :: fe ++ [Frag.s [')']] else fe) ve i := by
          split
          · exact PFrag_wrap _ _ fe ve i (by decide) (by decide) (by decide)
              (by decide) hfe
          · exact hfe
        cases rest with
        | nil =>
          simp only [condElemsToQueryW, Except.ok.injEq, Prod.mk.injEq] at hr
          obtain ⟨rfl, rfl⟩ := hr
          simpa [joinFrags] using hfe2
        | cons e2 r2 =>
          obtain ⟨p, ps, rfl⟩ := condElemsW_cons_shape f e2 r2 _ fr vr hr
          have hrest := ih (i + ve.length) (p :: ps) vr hcl.2 hr
          have hmid : PFrag (Frag.s sep :: joinFrags sep (p :: ps)) vr
              (i + ve.length) := PFrag_textHead sep _ _ _ hsep1 hsep2 hrest
          exact PFrag_append _ _ ve vr i hfe2 hmid

/-- The spec-modelled comparison renderer threads the parameter counter
correctly at every depth budget: the fragments it returns satisfy the
placeholder invariant at the starting index it was given. -/
theorem condToQueryF_spec (h : PyHeap) :
    ∀ (fuel : Nat) (o : Obj) (i : Nat) (fs : List Frag) (vs : List Obj),
    cleanCondF h fuel o = true →
    condToQueryF h fuel o i = .ok (fs, vs) → PFrag fs vs i := by
  intro fuel
  induction fuel with
  | zero =>
    intro o i fs vs _ hok
    exact Except.noConfusion hok
  | succ fuel ih =>
    intro o i fs vs hc hok
    match o with
    | .comp l op r =>
      simp only [condToQueryF] at hok
      cases hl : objToQueryStr h l with
      | error e => rw [hl] at hok; exact absurd hok (by simp)
      | ok lq =>
        rw [hl] at hok
        simp only [] at hok
        rw [cleanCondF_comp, Bool.and_eq_true] at hc
        have hlq := objToQueryStr_clean h l lq hc.1 hl
        cases r
        case column c2 =>
          simp only [Except.ok.injEq, Prod.mk.injEq] at hok
          obtain ⟨rfl, rfl⟩ := hok
          have hc2 : cleanField c2 = true := hc.2
          refine PFrag_text _ i ?_ ?_
          · simp [noDollar_append, noDollar_cons, noDollar_nil, hlq.1,
              (opValue_clean op).1, noDollar_colToQuery c2 hc2]
          · exact startsOk_append _ _ (startsOk_append _ _ hlq.2
              (by simp [startsOk])) (by simp [startsOk])
        all_goals
          simp only [Except.ok.injEq, Prod.mk.injEq] at hok
        all_goals
          obtain ⟨rfl, rfl⟩ := hok
        all_goals
          refine PFrag_textHead _ _ _ _ ?_ ?_ (PFrag_param _ i)
        all_goals
          first
          | (simp only [List.append_assoc, List.cons_append]
             exact startsOk_append _ _ hlq.2 (by simp [startsOk]))
          | simp [noDollar_append, noDollar_cons, noDollar_nil, hlq.1,
              (opValue_clean op).1]
    | .group g es =>
      simp only [condToQueryF] at hok
      cases he : condElemsToQueryW (condToQueryF h fuel) es i with
      | error e => rw [he] at hok; exact absurd hok (by simp)
      | ok pv =>
        obtain ⟨parts, vsE⟩ := pv
        rw [he] at hok
        simp only [Except.ok.injEq, Prod.mk.injEq] at hok
        obtain ⟨rfl, rfl⟩ := hok
        exact condElemsW_spec (condToQueryF h fuel) (cleanCondF h fuel)
          (fun o2 i2 fs2 vs2 hc2 hok2 => ih o2 i2 fs2 vs2 hc2 hok2)
          _
          (by simp [noDollar_cons, noDollar_append, noDollar_nil,
            (groupValue_clean g).1])
          (by simp [startsOk])
          es i parts vsE
          (by rw [cleanCondF_group] at hc; exact hc) he
    | .none => exact Except.noConfusion hok
    | .int n => exact Except.noConfusion hok
    | .str s => exact Except.noConfusion hok
    | .boolean bo => exact Except.noConfusion hok
    | .list xs => exact Except.noConfusion hok
    | .column c => exact Except.noConfusion hok
    | .table t => exact Except.noConfusion hok
    | .fmRef r => exact Except.noConfusion hok
    | .pair a b => exact Except.noConfusion hok

/-- Condition rendering at the full depth budget satisfies the
placeholder invariant on clean conditions. -/
theorem condToQuery_spec (h : PyHeap) (o : Obj) (i : Nat) (fs : List Frag)
    (vs : List Obj) (hc : cleanCond h o = true)
    (hok : condToQuery h o i = .ok (fs, vs)) : PFrag fs vs i :=
  condToQueryF_spec h condDepthLimit o i fs vs hc hok

theorem buildSet_cons_shape (e : Obj) (es : List Obj) (n : Nat)
    (comps : List (List Frag)) (vs : List Obj)
    (hok : buildSetComponents (e :: es) n = .ok (comps, vs)) :
    ∃ p ps, comps = p :: ps := by
  match e, hok with
  | .pair (.column c) v, hok =>
    simp only [buildSetComponents] at hok
    cases hr : buildSetComponents es (n + 1) with
    | error er => rw [hr] at hok; exact absurd hok (by simp)
    | ok fv =>
      obtain ⟨cs, ws⟩ := fv
      rw [hr] at hok
      simp only [Except.ok.injEq, Prod.mk.injEq] at hok
      exact ⟨_, cs, hok.1.symm⟩

/-- The UPDATE SET loop threads the parameter counter: joined with any
clean separator, the components satisfy the placeholder invariant
starting at one past the number of variables emitted so far. -/
theorem buildSetComponents_spec (pairs : List Obj) (n : Nat)
    (comps : List (List Frag)) (vs : List Obj)
    (hc : pairs.all cleanUpdatePair = true)
    (hok : buildSetComponents pairs n = .ok (comps, vs)) (sep : Str)
    (hsep1 : noDollar sep = true) (hsep2 : startsOk sep = true) :
    PFrag (joinFrags sep comps) vs (n + 1) := by
  match pairs, hok with
  | [], hok =>
    simp only [buildSetComponents, Except.ok.injEq, Prod.mk.injEq] at hok
    obtain ⟨rfl, rfl⟩ := hok
    simpa [joinFrags] using PFrag_nil (n + 1)
  | .pair (.column c) v :: rest, hok =>
    simp only [buildSetComponents] at hok
    cases hr : buildSetComponents rest (n + 1) with
    | error er => rw [hr] at hok; exact absurd hok (by simp)
    | ok fv =>
      obtain ⟨cs, ws⟩ := fv
      rw [hr] at hok
      simp only [Except.ok.injEq, Prod.mk.injEq] at hok
      obtain ⟨rfl, rfl⟩ := hok
      have hcl : cleanField c = true ∧ rest.all cleanUpdatePair = true := by
        simpa [List.all_cons, cleanUpdatePair] using hc
      have hcomp : PFrag [Frag.s (colToQuery c ++ " = ".data), Frag.p (n + 1) v]
          [v] (n + 1) := by
        refine PFrag_textHead _ _ _ _ ?_ ?_ (PFrag_param v (n + 1))
        · simp [noDollar_append, noDollar_cons, noDollar_nil,
            noDollar_colToQuery c hcl.1]
        · exact startsOk_append _ _ (startsOk_colToQuery c) (by decide)
      match rest, hr with
      | [], hr =>
        simp only [buildSetComponents, Except.ok.injEq, Prod.mk.injEq] at hr
        obtain ⟨rfl, rfl⟩ := hr
        simpa [joinFrags] using hcomp
      | e2 :: r2, hr =>
        obtain ⟨p, ps, rfl⟩ := buildSet_cons_shape e2 r2 (n + 1) cs ws hr
        have hrest := buildSetComponents_spec (e2 :: r2) (n + 1) (p :: ps) ws
          hcl.2 hr sep hsep1 hsep2
        have hmid : PFrag (Frag.s sep :: joinFrags sep (p :: ps)) ws
            ((n + 1) + 1) := PFrag_textHead sep _ _ _ hsep1 hsep2 hrest
        have := PFrag_append _ _ [v] ws (n + 1) hcomp (by simpa using hmid)
        simpa [joinFrags] using this

theorem buildHaving_cons_shape (h : PyHeap) (e : Obj) (es : List Obj) (n : Nat)
    (frs : List (List Frag)) (vs : List Obj)
    (hok : buildHavingList h (e :: es) n = .ok (frs, vs)) :
    ∃ p ps, frs = p :: ps := by
  match e, hok with
  | .comp (.fmRef lr) op r, hok =>
    simp only [buildHavingList] at hok
    obtain ⟨rF, rV, hEq⟩ : ∃ rF rV,
        (match r with
         | Obj.fmRef rr => ([Frag.s (h.readFm rr).literal], ([] : List Obj))
         | _ => ([Frag.p (n + 1) r], [r])) = (rF, rV) := by
      cases r <;> exact ⟨_, _, rfl⟩
    rw [hEq] at hok
    cases hr : buildHavingList h es (n + rV.length) with
    | error er => rw [hr] at hok; exact absurd hok (by simp)
    | ok fv =>
      obtain ⟨cs, ws⟩ := fv
      rw [hr] at hok
      simp only [Except.ok.injEq, Prod.mk.injEq] at hok
      exact ⟨_, cs, hok.1.symm⟩

/-- The HAVING loop threads the parameter counter: joined with any clean
separator, the rendered conditions satisfy the placeholder invariant
starting at one past the number of variables emitted so far. -/
theorem buildHavingList_spec (h : PyHeap) (conds : List Obj) (n : Nat)
    (frs : List (List Frag)) (vs : List Obj)
    (hc : conds.all (cleanHavingCond h) = true)
    (hok : buildHavingList h conds n = .ok (frs, vs)) (sep : Str)
    (hsep1 : noDollar sep = true) (hsep2 : startsOk sep = true) :
    PFrag (joinFrags sep frs) vs (n + 1) := by
  match conds, hok with
  | [], hok =>
    simp only [buildHavingList, Except.ok.injEq, Prod.mk.injEq] at hok
    obtain ⟨rfl, rfl⟩ := hok
    simpa [joinFrags] using PFrag_nil (n + 1)
  | .comp (.fmRef lr) op r :: rest, hok =>
    simp only [buildHavingList] at hok
    have hcl : cleanHavingCond h (.comp (.fmRef lr) op r) = true ∧
        rest.all (cleanHavingCond h) = true := by
      simpa [List.all_cons] using hc
    have hlit : noDollar (h.readFm lr).literal = true ∧
        startsOk (h.readFm lr).literal = true := by
      have := hcl.1
      simp only [cleanHavingCond, cleanOperand, Bool.and_eq_true] at this
      exact this.1
    have hop := opValue_clean op
    have hfield : noDollar ((h.readFm lr).literal ++ ' ' :: op.value ++ [' '])
        = true := by
      simp [noDollar_append, noDollar_cons, noDollar_nil, hlit.1, hop.1]
    have hfieldS : startsOk ((h.readFm lr).literal ++ ' ' :: op.value ++ [' '])
        = true := by
      exact startsOk_append _ _ (startsOk_append _ _ hlit.2 (by simp [startsOk]))
        (by decide)
    obtain ⟨rF, rV, hEq, hPF⟩ : ∃ rF rV,
        (match r with
         | Obj.fmRef rr => ([Frag.s (h.readFm rr).literal], ([] : List Obj))
         | _ => ([Frag.p (n + 1) r], [r])) = (rF, rV) ∧ PFrag rF rV (n + 1) := by
      cases r
      case fmRef rr =>
        refine ⟨[Frag.s (h.readFm rr).literal], [], rfl, ?_⟩
        have hrlit : noDollar (h.readFm rr).literal = true ∧
            startsOk (h.readFm rr).literal = true := by
          have := hcl.1
          simp only [cleanHavingCond, cleanOperand, Bool.and_eq_true] at this
          exact this.2
        exact PFrag_text _ (n + 1) hrlit.1 hrlit.2
      all_goals exact ⟨[Frag.p (n + 1) _], [_], rfl, PFrag_param _ _⟩
    rw [hEq] at hok
    cases hr : buildHavingList h rest (n + rV.length) with
    | error er => rw [hr] at hok; exact absurd hok (by simp)
    | ok fv =>
      obtain ⟨cs, ws⟩ := fv
      rw [hr] at hok
      simp only [Except.ok.injEq, Prod.mk.injEq] at hok
      obtain ⟨rfl, rfl⟩ := hok
      have hcomp : PFrag (Frag.s ((h.readFm lr).literal ++ ' ' :: op.value
          ++ [' ']) :: rF) rV (n + 1) :=
        PFrag_textHead _ _ _ _ hfield hfieldS hPF
      match rest, hr with
      | [], hr =>
        simp only [buildHavingList, Except.ok.injEq, Prod.mk.injEq] at hr
        obtain ⟨rfl, rfl⟩ := hr
        simpa [joinFrags] using hcomp
      | e2 :: r2, hr =>
        obtain ⟨p, ps, rfl⟩ := buildHaving_cons_shape h e2 r2 _ cs ws hr
        have hrest := buildHavingList_spec h (e2 :: r2) (n + rV.length) (p :: ps)
          ws hcl.2 hr sep hsep1 hsep2
        have hmid : PFrag (Frag.s sep :: joinFrags sep (p :: ps)) ws
            (n + rV.length + 1) :=
          PFrag_textHead sep _ _ _ hsep1 hsep2 hrest
        have hmid2 : PFrag (Frag.s sep :: joinFrags sep (p :: ps)) ws
            ((n + 1) + rV.length) := by
          rwa [Nat.add_right_comm] at hmid
        have := PFrag_append _ _ rV ws (n + 1) hcomp hmid2
        simpa [joinFrags] using this

theorem PFrag_append_text (fs : List Frag) (vs : List Obj) (i : Nat) (t : Str)
    (h : PFrag fs vs i) (h1 : noDollar t = true) (h2 : startsOk t = true) :
    PFrag (fs ++ [Frag.s t]) vs i := by
  have := PFrag_append fs [.s t] vs [] i h
    (by simpa using PFrag_text t (i + vs.length) h1 h2)
  simpa using this

theorem cleanStored_objStr (o : Obj) (hc : cleanStored o = true) :
    noDollar (objStr o) = true ∧ startsOk (objStr o) = true := by
  cases o
  case str s => simpa [cleanStored, objStr, Bool.and_eq_true] using hc
  all_goals exact ⟨rfl, rfl⟩

theorem joinStr_map_clean (sep : Str) (xs : List Obj)
    (hsep : noDollar sep = true) (hall : xs.all cleanStored = true) :
    noDollar (joinStr sep (xs.map objStr)) = true := by
  refine noDollar_joinStr sep _ hsep ?_
  intro x hx
  simp only [List.mem_map] at hx
  obtain ⟨o, ho, rfl⟩ := hx
  rw [List.all_eq_true] at hall
  exact (cleanStored_objStr o (hall o ho)).1

theorem groupByItems_clean (gbs : List Obj) (items : List Str)
    (hall : gbs.all cleanGroupByField = true)
    (hok : groupByItems gbs = .ok items) :
    ∀ it ∈ items, noDollar it = true := by
  induction gbs generalizing items with
  | nil =>
      simp only [groupByItems, Except.ok.injEq] at hok
      subst hok
      simp
  | cons f rest ih =>
      simp only [groupByItems] at hok
      cases hf : groupByItem f with
      | error e => rw [hf] at hok; exact absurd hok (by simp)
      | ok it0 =>
        rw [hf] at hok
        cases hr : groupByItems rest with
        | error e => rw [hr] at hok; exact absurd hok (by simp)
        | ok its =>
          rw [hr] at hok
          simp only [Except.ok.injEq] at hok
          subst hok
          have hallp : cleanGroupByField f = true ∧ rest.all cleanGroupByField = true := by
            simpa [List.all_cons] using hall
          intro it hit
          simp only [List.mem_cons] at hit
          rcases hit with rfl | hit
          · cases f
            case column c =>
              simp only [groupByItem, Except.ok.injEq] at hf
              subst hf
              have hcf : cleanField c = true := hallp.1
              simp only [cleanField, Bool.and_eq_true] at hcf
              rw [noDollar_iff]
              intro x hx
              simp only [List.mem_append, List.mem_cons] at hx
              rcases hx with hx | rfl | hx
              · exact (noDollar_iff _).1 (noDollar_quoteIdent _ hcf.1) x hx
              · decide
              · exact (noDollar_iff _).1 (noDollar_quoteIdent _ hcf.2) x hx
            all_goals simp [groupByItem] at hf
          · exact ih its hallp.2 hr it hit

theorem digitToChar_ne (d : Nat) : digitToChar d ≠ '$' := by
  unfold digitToChar
  split <;> decide

theorem noDollar_natChars (k : Nat) : noDollar (natChars k) = true := by
  rw [noDollar_iff]
  intro c hc
  simp only [natChars, List.mem_map] at hc
  obtain ⟨d, _, rfl⟩ := hc
  exact digitToChar_ne d

theorem noDollar_intChars (n : Int) : noDollar (intChars n) = true := by
  unfold intChars
  split
  · rw [noDollar_cons, noDollar_natChars]
    decide
  · exact noDollar_natChars _

/-!
## The placeholder invariant holds across all build stages
-/

theorem stageJoin_spec (b : Builder) (h : PyHeap) (fv : List Frag × List Obj)
    (hJoin : (h.read b.joinRef).all cleanStored = true)
    (hP : PFrag fv.1 fv.2 1) :
    PFrag (QueryBuilder.stageJoin b h fv).1 (QueryBuilder.stageJoin b h fv).2 1 := by
  unfold QueryBuilder.stageJoin
  cases hjs : h.read b.joinRef with
  | nil => simpa using hP
  | cons j js =>
      rw [hjs] at hJoin
      refine PFrag_append_text _ _ _ _ hP ?_ (by simp [startsOk])
      rw [noDollar_cons, joinStr_map_clean _ _ (by decide) hJoin]
      decide

theorem stageWhere_spec (b : Builder) (h : PyHeap) (fv fv1 : List Frag × List Obj)
    (hWhere : cleanCondList h (h.read b.whereRef) = true)
    (hP : PFrag fv.1 fv.2 1)
    (hok : QueryBuilder.stageWhere b h fv = .ok fv1) :
    PFrag fv1.1 fv1.2 1 := by
  unfold QueryBuilder.stageWhere at hok
  cases hwcs : h.read b.whereRef with
  | nil =>
      rw [hwcs] at hok
      simp only [Except.ok.injEq] at hok
      subst hok
      exact hP
  | cons w ws =>
      rw [hwcs] at hok
      simp only [] at hok
      cases hag : andGroup (w :: ws) with
      | error e => rw [hag] at hok; exact absurd hok (by simp)
      | ok g =>
        rw [hag] at hok
        have hg : g = .group .AND (w :: ws) := by
          unfold andGroup at hag
          split at hag
          · have := hag
            simp only [Except.ok.injEq] at this
            exact this.symm
          · exact absurd hag (by simp)
        subst hg
        simp only [] at hok
        cases hcq : condToQuery h (.group .AND (w :: ws)) (fv.2.length + 1) with
        | error e => rw [hcq] at hok; exact absurd hok (by simp)
        | ok cv =>
          obtain ⟨cfr, cvars⟩ := cv
          rw [hcq] at hok
          simp only [Except.ok.injEq] at hok
          subst hok
          have hPc := condToQuery_spec h _ _ cfr cvars
            (by rw [cleanCond_group]; rw [hwcs] at hWhere; exact hWhere) hcq
          refine PFrag_append _ _ _ _ 1 hP ?_
          refine PFrag_textHead _ _ _ _ (by decide) (by decide) ?_
          rwa [Nat.add_comm 1 fv.2.length]

theorem stageGroup_spec (b : Builder) (h : PyHeap) (fv fv1 : List Frag × List Obj)
    (hGrp : (h.read b.groupByRef).all cleanGroupByField = true)
    (hP : PFrag fv.1 fv.2 1)
    (hok : QueryBuilder.stageGroup b h fv = .ok fv1) :
    PFrag fv1.1 fv1.2 1 := by
  unfold QueryBuilder.stageGroup at hok
  cases hgbs : h.read b.groupByRef with
  | nil =>
      rw [hgbs] at hok
      simp only [Except.ok.injEq] at hok
      subst hok
      exact hP
  | cons g gs =>
      rw [hgbs] at hok
      simp only [] at hok
      cases hit : groupByItems (g :: gs) with
      | error e => rw [hit] at hok; exact absurd hok (by simp)
      | ok items =>
        rw [hit] at hok
        simp only [Except.ok.injEq] at hok
        subst hok
        rw [hgbs] at hGrp
        refine PFrag_append_text _ _ _ _ hP ?_
          (startsOk_append_left _ _ (by decide) (by decide))
        rw [noDollar_append,
          noDollar_joinStr _ _ (by decide) (groupByItems_clean _ _ hGrp hit)]
        decide

theorem stageHaving_spec (b : Builder) (h : PyHeap) (fv fv1 : List Frag × List Obj)
    (hHav : (h.read b.havingRef).all (cleanHavingCond h) = true)
    (hP : PFrag fv.1 fv.2 1)
    (hok : QueryBuilder.stageHaving b h fv = .ok fv1) :
    PFrag fv1.1 fv1.2 1 := by
  unfold QueryBuilder.stageHaving at hok
  cases hhcs : h.read b.havingRef with
  | nil =>
      rw [hhcs] at hok
      simp only [Except.ok.injEq] at hok
      subst hok
      exact hP
  | cons c cs =>
      rw [hhcs] at hok
      simp only [] at hok
      cases hbl : buildHavingList h (c :: cs) fv.2.length with
      | error e => rw [hbl] at hok; exact absurd hok (by simp)
      | ok hv =>
        obtain ⟨hfrs, hvs⟩ := hv
        rw [hbl] at hok
        simp only [Except.ok.injEq] at hok
        subst hok
        rw [hhcs] at hHav
        have hPh := buildHavingList_spec h (c :: cs) fv.2.length hfrs hvs hHav hbl
          " AND ".data (by decide) (by decide)
        refine PFrag_append _ _ _ _ 1 hP ?_
        refine PFrag_textHead _ _ _ _ (by decide) (by decide) ?_
        rwa [Nat.add_comm 1 fv.2.length]

theorem stageOrder_spec (b : Builder) (h : PyHeap) (fv : List Frag × List Obj)
    (hOrd : (h.read b.orderByRef).all cleanStored = true)
    (hP : PFrag fv.1 fv.2 1) :
    PFrag (QueryBuilder.stageOrder b h fv).1 (QueryBuilder.stageOrder b h fv).2 1 := by
  unfold QueryBuilder.stageOrder
  cases hobs : h.read b.orderByRef with
  | nil => simpa using hP
  | cons o os =>
      rw [hobs] at hOrd
      refine PFrag_append_text _ _ _ _ hP ?_
        (startsOk_append_left _ _ (by decide) (by decide))
      rw [noDollar_append, joinStr_map_clean _ _ (by decide) hOrd]
      decide

theorem stageLimit_spec (b : Builder) (fv : List Frag × List Obj)
    (hP : PFrag fv.1 fv.2 1) :
    PFrag (QueryBuilder.stageLimit b fv).1 (QueryBuilder.stageLimit b fv).2 1 := by
  unfold QueryBuilder.stageLimit
  cases b.limitValue with
  | none => simpa using hP
  | some n =>
      refine PFrag_append_text _ _ _ _ hP ?_
        (startsOk_append_left _ _ (by decide) (by decide))
      rw [noDollar_append, noDollar_intChars]
      decide

theorem stageOffset_spec (b : Builder) (fv : List Frag × List Obj)
    (hP : PFrag fv.1 fv.2 1) :
    PFrag (QueryBuilder.stageOffset b fv).1 (QueryBuilder.stageOffset b fv).2 1 := by
  unfold QueryBuilder.stageOffset
  cases b.offsetValue with
  | none => simpa using hP
  | some n =>
      refine PFrag_append_text _ _ _ _ hP ?_
        (startsOk_append_left _ _ (by decide) (by decide))
      rw [noDollar_append, noDollar_intChars]
      decide

theorem buildHead_spec (b : Builder) (h : PyHeap) (f0 : List Frag)
    (v0 : List Obj)
    (hSel : (h.read b.selectFieldsRef).all cleanStored = true)
    (hDist : (h.read b.distinctRef).all cleanStored = true)
    (hUpd : (h.read b.updateRef).all cleanUpdatePair = true)
    (hModel : (match b.mainModel with
               | some m => noDollar m.name
               | Option.none => true) = true)
    (hok : QueryBuilder.buildHead b h = .ok (f0, v0)) : PFrag f0 v0 1 := by
  unfold QueryBuilder.buildHead at hok
  cases hqt : b.queryType with
  | none =>
      rw [hqt] at hok
      simp only [Except.ok.injEq, Prod.mk.injEq] at hok
      obtain ⟨rfl, rfl⟩ := hok
      exact PFrag_nil 1
  | some qt =>
    rw [hqt] at hok
    cases qt with
    | select =>
        cases hm : b.mainModel with
        | none => rw [hm] at hok; exact absurd hok (by simp)
        | some m =>
          rw [hm] at hok
          rw [hm] at hModel
          have hM : noDollar m.name = true := hModel
          simp only [Except.ok.injEq, Prod.mk.injEq] at hok
          obtain ⟨rfl, rfl⟩ := hok
          have hdp : noDollar (match h.read b.distinctRef with
              | [] => []
              | ds => " DISTINCT ON (".data ++
                  joinStr ", ".data (ds.map objStr) ++ [')']) = true := by
            cases hds : h.read b.distinctRef with
            | nil => rfl
            | cons d ds =>
                rw [hds] at hDist
                have hj : noDollar (joinStr [',', ' ']
                    ((d :: ds).map objStr)) = true :=
                  joinStr_map_clean _ _ (by decide) hDist
                simp only [noDollar_append, hj]
                decide
          have hj2 : noDollar (joinStr [',', ' ']
              ((h.read b.selectFieldsRef).map objStr)) = true :=
            joinStr_map_clean _ _ (by decide) hSel
          refine PFrag_text _ 1 ?_ (by simp [startsOk])
          simp only [noDollar_append, noDollar_cons, hdp, hj2,
            noDollar_quoteIdent _ hM]
          decide
    | update =>
        cases hm : b.mainModel with
        | none => rw [hm] at hok; exact absurd hok (by simp)
        | some m =>
          rw [hm] at hok
          rw [hm] at hModel
          have hM : noDollar m.name = true := hModel
          cases hsc : buildSetComponents (h.read b.updateRef) 0 with
          | error e => rw [hsc] at hok; exact absurd hok (by simp)
          | ok cv =>
            obtain ⟨comps, ws⟩ := cv
            rw [hsc] at hok
            simp only [Except.ok.injEq, Prod.mk.injEq] at hok
            obtain ⟨rfl, rfl⟩ := hok
            have hPs := buildSetComponents_spec (h.read b.updateRef) 0 comps ws
              hUpd hsc ", ".data (by decide) (by decide)
            refine PFrag_textHead _ _ _ _ ?_ (by simp [startsOk]) hPs
            simp only [noDollar_append, noDollar_quoteIdent _ hM]
            decide
    | delete =>
        cases hm : b.mainModel with
        | none => rw [hm] at hok; exact absurd hok (by simp)
        | some m =>
          rw [hm] at hok
          rw [hm] at hModel
          have hM : noDollar m.name = true := hModel
          simp only [Except.ok.injEq, Prod.mk.injEq] at hok
          obtain ⟨rfl, rfl⟩ := hok
          refine PFrag_text _ 1 ?_ (by simp [startsOk])
          simp only [noDollar_append, noDollar_quoteIdent _ hM]
          decide

/-- The full build pipeline preserves the placeholder invariant: on any
clean builder state, a successful `buildMain` returns fragments whose
placeholders are numbered 1, 2, ... in order, bound to the returned
parameters. -/
theorem buildMain_spec (b : Builder) (h : PyHeap) (fs : List Frag)
    (vs : List Obj) (hc : cleanBuilder b h = true)
    (hok : QueryBuilder.buildMain b h = .ok (fs, vs)) : PFrag fs vs 1 := by
  simp only [cleanBuilder, Bool.and_eq_true] at hc
  obtain ⟨⟨⟨⟨⟨⟨⟨⟨hSel, hDist⟩, hJoin⟩, hOrd⟩, hWhere⟩, hGrp⟩, hHav⟩, hUpd⟩,
    hModel⟩ := hc
  unfold QueryBuilder.buildMain at hok
  cases hh : QueryBuilder.buildHead b h with
  | error e => rw [hh] at hok; exact absurd hok (by simp)
  | ok fv =>
    obtain ⟨f0, v0⟩ := fv
    rw [hh] at hok
    simp only [] at hok
    have hP0 := buildHead_spec b h f0 v0 hSel hDist hUpd hModel hh
    have hP1 := stageJoin_spec b h (f0, v0) hJoin hP0
    cases hw : QueryBuilder.stageWhere b h (QueryBuilder.stageJoin b h (f0, v0)) with
    | error e => rw [hw] at hok; exact absurd hok (by simp)
    | ok fv1 =>
      rw [hw] at hok
      simp only [] at hok
      have hP2 := stageWhere_spec b h _ fv1 hWhere hP1 hw
      cases hg : QueryBuilder.stageGroup b h fv1 with
      | error e => rw [hg] at hok; exact absurd hok (by simp)
      | ok fv2 =>
        rw [hg] at hok
        simp only [] at hok
        have hP3 := stageGroup_spec b h fv1 fv2 hGrp hP2 hg
        cases hv : QueryBuilder.stageHaving b h fv2 with
        | error e => rw [hv] at hok; exact absurd hok (by simp)
        | ok fv3 =>
          rw [hv] at hok
          simp only [] at hok
          have hP4 := stageHaving_spec b h fv2 fv3 hHav hP3 hv
          simp only [Except.ok.injEq] at hok
          have hP5 := stageOffset_spec b _ (stageLimit_spec b _
            (stageOrder_spec b h fv3 hOrd hP4))
          rw [hok] at hP5
          exact hP5


/-!
## Claim scenarios and theorems
-/

/-- Naive substring test: does the pattern occur contiguously in the
string? -/
def hasSub : Str → Str → Bool
  | s, pat =>
    if pat.isPrefixOf s then true
    else
      match s with
      | [] => false
      | _ :: rest => hasSub rest pat

/-- The demo column userdemo.id used by the repo's own tests. -/
def udField : DBField := ⟨"userdemo".data, "id".data⟩

/-- The demo table userdemo. -/
def udTable : PyTable := ⟨"userdemo".data⟩

/-- The demo table artifactdemo. -/
def adTable : PyTable := ⟨"artifactdemo".data⟩

/-- The demo column artifactdemo.title. -/
def adTitle : DBField := ⟨"artifactdemo".data, "title".data⟩

/-- The demo column artifactdemo.user_id. -/
def adUser : DBField := ⟨"artifactdemo".data, "user_id".data⟩

/-- Branching scenario of spec §8 property 2, with the where-refinement
created: base `b = QueryBuilder().select(UserDemo.id)`, then
`b1 = b.where(UserDemo.id > 0)` (discarded), then
`b2 = b.order_by(UserDemo.id, "ASC")`; the result is `b2.build()`. -/
def branchWith : Except Err (Str × List Obj) :=
  let (b0, h0) := QueryBuilder.init PyHeap.empty
  match QueryBuilder.select b0 [.column udField] h0 with
  | .error e => .error e
  | .ok (b, h) =>
    match QueryBuilder.«where» b [.comp (.column udField) .GT (.int 0)] h with
    | .error e => .error e
    | .ok (_b1, h) =>
        match QueryBuilder.orderBy b (.column udField) .ASC h with
        | .error e => .error e
        | .ok (b2, h) => QueryBuilder.buildStr b2 h

/-- The same scenario with the where-refinement never created. -/
def branchWithout : Except Err (Str × List Obj) :=
  let (b0, h0) := QueryBuilder.init PyHeap.empty
  match QueryBuilder.select b0 [.column udField] h0 with
  | .error e => .error e
  | .ok (b, h) =>
      match QueryBuilder.orderBy b (.column udField) .ASC h with
      | .error e => .error e
      | .ok (b2, h) => QueryBuilder.buildStr b2 h

/-- C1: the claim states that every mutating method returns an
independent builder copy, so that for `b1 = b.where(c1)` and
`b2 = b.order_by(col)` neither refinement's `build()` output depends on
whether the other was ever created.  The code violates this:
`allow_branching` makes a shallow copy, so all branches share the same
underlying condition lists, and `where()` extends the shared list in
place; creating `b1` therefore injects its WHERE condition into `b2`.
This theorem evaluates the code at the failing input: with the
where-branch created, `b2.build()` contains `WHERE "userdemo"."id" > $1`
and carries its parameter, and differs from the build without the
branch. -/
theorem claim_C1_branching_violated :
    branchWith = .ok (("SELECT \"userdemo\".\"id\" FROM \"userdemo\" WHERE \"userdemo\".\"id\" > $1 ORDER BY \"userdemo\".\"id\" ASC").data, [Obj.int 0])
    ∧ branchWithout = .ok (("SELECT \"userdemo\".\"id\" FROM \"userdemo\" ORDER BY \"userdemo\".\"id\" ASC").data, [])
    ∧ decide (branchWith = branchWithout) = false := by
  exact ⟨by decide, by decide, by decide⟩

/-- The members of the `ComparisonType` enum as listed in
src/iceaxe/comparison.py lines 6-15. -/
def ComparisonType.allOps : List ComparisonType :=
  [.EQ, .NE, .LT, .LE, .GT, .GE, .IN, .NOT_IN, .LIKE]

/-- C2: the claim states that `col == None` produces a comparison with
operator IS, `col != None` produces IS_NOT, and that the operator set
includes NOT_LIKE, ILIKE, NOT_ILIKE, IS and IS_NOT.  The code in
src/iceaxe/comparison.py contradicts this (its own tests in
src/iceaxe/__tests__/test_comparison.py assert the claimed behaviour):
`__eq__`/`__ne__` build EQ/NE comparisons unconditionally, and the enum
has exactly nine members, none of whose SQL values is IS, IS NOT,
ILIKE, NOT LIKE or NOT ILIKE. -/
theorem claim_C2_null_comparison_not_rewritten :
    ComparisonBase.eq (.column udField) Obj.none
      = Obj.comp (.column udField) ComparisonType.EQ Obj.none
    ∧ ComparisonBase.ne (.column udField) Obj.none
      = Obj.comp (.column udField) ComparisonType.NE Obj.none
    ∧ (∀ t : ComparisonType, ComparisonType.allOps.contains t = true)
    ∧ ((ComparisonType.allOps.map ComparisonType.value).contains "IS".data
        || (ComparisonType.allOps.map ComparisonType.value).contains "IS NOT".data
        || (ComparisonType.allOps.map ComparisonType.value).contains "ILIKE".data
        || (ComparisonType.allOps.map ComparisonType.value).contains "NOT LIKE".data
        || (ComparisonType.allOps.map ComparisonType.value).contains "NOT ILIKE".data)
        = false := by
  refine ⟨rfl, rfl, ?_, by decide⟩
  intro t
  cases t <;> decide

/-- `QueryBuilder().update(UserDemo)` with no `set()` calls, then
`build()`. -/
def updateEmptySet : Except Err (Str × List Obj) :=
  let (b0, h0) := QueryBuilder.init PyHeap.empty
  QueryBuilder.buildStr (QueryBuilder.update b0 udTable) h0

/-- C4 counterexample: the claim states that `build()` on an UPDATE with
empty `update_set` fails with an IncompleteQuery error and does not
return a SQL string.  At this concrete input the code raises nothing and
returns the malformed statement with an empty SET list. -/
theorem claim_C4_counterexample :
    updateEmptySet = .ok ("UPDATE \"userdemo\" SET ".data, []) := by decide

/-- C4 (amended): `build()` on an UPDATE whose `update_set` is empty does
not fail — it renders the UPDATE head with an empty SET list; a SELECT
with no SELECT list fails with ValueError, raised by `select()` itself at
the call site rather than by `build()`. -/
theorem claim_C4_empty_update_set (b : Builder) (h : PyHeap) (m : PyTable)
    (hqt : b.queryType = some QueryType.update)
    (hm : b.mainModel = some m)
    (hupd : h.read b.updateRef = []) :
    QueryBuilder.buildHead b h
      = .ok ([Frag.s ("UPDATE ".data ++ quoteIdent m.name ++ " SET ".data)], [])
    ∧ (∀ (b2 : Builder) (h2 : PyHeap),
        QueryBuilder.select b2 [] h2 = .error .valueError) := by
  constructor
  · unfold QueryBuilder.buildHead
    rw [hqt, hm, hupd]
    rfl
  · intro b2 h2
    rfl

/-- Witness for C4: the amended claim applied to the concrete update
builder with an empty SET list. -/
theorem claim_C4_empty_update_set_witness :
    QueryBuilder.buildHead (QueryBuilder.update (QueryBuilder.init PyHeap.empty).1 udTable)
        (QueryBuilder.init PyHeap.empty).2
      = .ok ([Frag.s ("UPDATE ".data ++ quoteIdent udTable.name ++ " SET ".data)], [])
    ∧ QueryBuilder.select (QueryBuilder.init PyHeap.empty).1 []
        (QueryBuilder.init PyHeap.empty).2 = .error .valueError := by
  refine ⟨(claim_C4_empty_update_set _ _ udTable (by decide) (by decide) (by decide)).1, ?_⟩
  exact (claim_C4_empty_update_set
    (QueryBuilder.update (QueryBuilder.init PyHeap.empty).1 udTable)
    (QueryBuilder.init PyHeap.empty).2 udTable (by decide) (by decide)
    (by decide)).2 _ _

/-- The join scenario of the repo's own test_join
(src/iceaxe/__tests__/test_queries.py lines 78-87). -/
def joinScenario : Except Err (Str × List Obj) :=
  let (b0, h0) := QueryBuilder.init PyHeap.empty
  match QueryBuilder.select b0 [.column udField, .column adTitle] h0 with
  | .error e => .error e
  | .ok (b, h) =>
    match QueryBuilder.join b adTable (.comp (.column udField) .EQ (.column adUser))
        .INNER h with
    | .error e => .error e
    | .ok (b2, h) => QueryBuilder.buildStr b2 h

/-- C6 counterexample: the claim states that for every `join(table, on)`
the joined table's name appears double-quoted in the rendered JOIN
clause.  In the concrete join of the repo's own test_join, the rendered
SQL joins `artifactdemo` unquoted — the quoted form never occurs. -/
theorem claim_C6_counterexample :
    joinScenario = .ok (("SELECT \"userdemo\".\"id\", \"artifactdemo\".\"title\" FROM \"userdemo\" INNER JOIN artifactdemo ON \"userdemo\".\"id\" = \"artifactdemo\".\"user_id\"").data, [])
    ∧ hasSub (("SELECT \"userdemo\".\"id\", \"artifactdemo\".\"title\" FROM \"userdemo\" INNER JOIN artifactdemo ON \"userdemo\".\"id\" = \"artifactdemo\".\"user_id\"").data)
        ("JOIN artifactdemo ON".data) = true
    ∧ hasSub (("SELECT \"userdemo\".\"id\", \"artifactdemo\".\"title\" FROM \"userdemo\" INNER JOIN artifactdemo ON \"userdemo\".\"id\" = \"artifactdemo\".\"user_id\"").data)
        ("JOIN \"artifactdemo\"".data) = false := by
  exact ⟨by decide, by decide, by decide⟩

/-- C6 (amended): column references in the join condition are rendered
double-quoted and table-qualified, but the joined table's name itself is
rendered verbatim (via `QueryLiteral`), not double-quoted. -/
theorem claim_C6_join_table_unquoted (b : Builder) (h : PyHeap) (t : PyTable)
    (l r : DBField) (op : ComparisonType) (jt : JoinType) :
    QueryBuilder.join b t (.comp (.column l) op (.column r)) jt h
      = .ok (b, h.extend b.joinRef
          [.str (jt.value ++ " JOIN ".data ++ t.name ++ " ON ".data
            ++ colToQuery l ++ ' ' :: op.value ++ ' ' :: colToQuery r)])
    ∧ colToQuery l = quoteIdent l.rootModel ++ '.' :: quoteIdent l.key
    ∧ quoteIdent t.name = '"' :: (t.name ++ ['"']) := by
  exact ⟨rfl, rfl, rfl⟩

/-- `QueryBuilder().text("", 5).build()`: the override with an empty
query string. -/
def textEmptyOverride : Except Err (Str × List Obj) :=
  let (b0, h0) := QueryBuilder.init PyHeap.empty
  let bh1 := QueryBuilder.text b0 [] [Obj.int 5] h0
  QueryBuilder.buildStr bh1.1 bh1.2

/-- C7 counterexample: the claim states that after `text(q, vars)` —
including the empty string q — `build()` returns exactly `(q, vars)`.
With `q = ""` and `vars = [5]`, Python's truthiness test
`if self.text_query:` skips the override and the builder returns
`("", [])`, not `("", [5])`. -/
theorem claim_C7_counterexample :
    textEmptyOverride = .ok ([], [])
    ∧ decide (textEmptyOverride = .ok ([], [Obj.int 5])) = false := by
  exact ⟨by decide, by decide⟩

theorem PyHeap.read_alloc (h : PyHeap) (xs : List Obj) :
    (h.alloc xs).2.read (h.alloc xs).1 = xs := by
  unfold PyHeap.alloc PyHeap.read
  simp only []
  rw [List.getD_eq_getElem?_getD, List.getElem?_append_right (Nat.le_refl _)]
  simp

/-- C7 (amended): for every non-empty string q, after `text(q, vars)` the
builder's `build()` returns exactly `(q, vars)` verbatim, ignoring all
other accumulated builder state; an empty q is ignored by the Python
truthiness test. -/
theorem claim_C7_text_override_verbatim (b : Builder) (h : PyHeap) (q : Str)
    (vs : List Obj) (hq : q ≠ []) :
    QueryBuilder.buildStr (QueryBuilder.text b q vs h).1
      (QueryBuilder.text b q vs h).2 = .ok (q, vs) := by
  have hne : q.isEmpty = false := by
    cases q with
    | nil => exact absurd rfl hq
    | cons c cs => rfl
  unfold QueryBuilder.text QueryBuilder.buildStr QueryBuilder.build
  simp only [hne, Except.map]
  rw [PyHeap.read_alloc]
  simp [renderFrags]

/-- A builder with two WHERE literals: select userdemo.id, then
`where(id > 0, id < 10)`. -/
def c3B : Builder × PyHeap :=
  let (b0, h0) := QueryBuilder.init PyHeap.empty
  match QueryBuilder.select b0 [.column udField] h0 with
  | .error _ => (b0, h0)
  | .ok (b, h) =>
    match QueryBuilder.«where» b
        [.comp (.column udField) .GT (.int 0),
         .comp (.column udField) .LT (.int 10)] h with
    | .error _ => (b, h)
    | .ok bh => bh

/-- The fragments of the successful build of `c3B`. -/
def c3Frags : List Frag :=
  match QueryBuilder.build c3B.1 c3B.2 with
  | .ok fv => fv.1
  | .error _ => []

/-- The parameters of the successful build of `c3B`. -/
def c3Vars : List Obj :=
  match QueryBuilder.build c3B.1 c3B.2 with
  | .ok fv => fv.2
  | .error _ => []

/-- `QueryBuilder().text("$5").build()`. -/
def c3TextDollar : Except Err (Str × List Obj) :=
  let (b0, h0) := QueryBuilder.init PyHeap.empty
  let bh1 := QueryBuilder.text b0 "$5".data [] h0
  QueryBuilder.buildStr bh1.1 bh1.2

/-- C3 counterexample: the claim quantifies over every builder state on
which `build()` succeeds, but on a builder carrying the raw-text override
`"$5"` the build succeeds returning `("$5", [])`, whose one placeholder
token is `$5`: not an ascending gap-free run starting at `$1`, and with
no parameter bound to it. -/
theorem claim_C3_counterexample :
    c3TextDollar = .ok ("$5".data, [])
    ∧ extractPlaceholders "$5".data = [5]
    ∧ decide (extractPlaceholders "$5".data
        = List.range' 1 (List.length ([] : List Obj))) = false := by
  exact ⟨by decide, by decide, by decide⟩

/-- C3 (amended): for every clean builder state (no dollar sign and no
leading digit in any identifier or stored rendered fragment) with no
raw-text override, if `build()` succeeds with `(sql, params)` then the
placeholder tokens of `sql` are exactly `$1, $2, ...` in ascending order
of occurrence with no gaps, one per parameter, and the k-th placeholder
is bound to `params[k-1]`: WHERE literals, HAVING literals and UPDATE
right-hand sides all draw from this single ascending counter. -/
theorem claim_C3_parameter_monotonicity (b : Builder) (h : PyHeap)
    (fs : List Frag) (vs : List Obj)
    (hclean : cleanBuilder b h = true)
    (htext : b.textQuery = Option.none)
    (hok : QueryBuilder.build b h = .ok (fs, vs)) :
    QueryBuilder.buildStr b h = .ok (renderFrags fs, vs)
    ∧ extractPlaceholders (renderFrags fs) = List.range' 1 vs.length
    ∧ fragParams fs = (List.range' 1 vs.length).zip vs := by
  have hmain : QueryBuilder.buildMain b h = .ok (fs, vs) := by
    unfold QueryBuilder.build at hok
    rw [htext] at hok
    exact hok
  obtain ⟨hokf, hpar⟩ := buildMain_spec b h fs vs hclean hmain
  refine ⟨?_, ?_, hpar⟩
  · unfold QueryBuilder.buildStr
    rw [hok]
    rfl
  · rw [extract_render fs hokf, hpar]
    exact List.map_fst_zip _ _ (by simp)

/-- Witness for C3: the amended claim applied to the concrete builder
with two WHERE literals. -/
theorem claim_C3_parameter_monotonicity_witness :
    QueryBuilder.buildStr c3B.1 c3B.2 = .ok (renderFrags c3Frags, c3Vars)
    ∧ extractPlaceholders (renderFrags c3Frags) = List.range' 1 c3Vars.length
    ∧ fragParams c3Frags = (List.range' 1 c3Vars.length).zip c3Vars :=
  claim_C3_parameter_monotonicity c3B.1 c3B.2 c3Frags c3Vars
    (by decide) (by decide) (by decide)

/-- C5: an argument that is neither a comparison nor a comparison group
is rejected by `where()`, `having()` and `join()` with the builder's
argument error, and a non-column argument by `group_by()`, `order_by()`
and `distinct_on()` — in each case by the offending call itself, not
deferred to `build()`. -/
theorem claim_C5_bad_argument_at_call (b : Builder) (h : PyHeap) (o : Obj)
    (t : PyTable) (jt : JoinType) (dir : OrderDirection)
    (hcmp : isComparison o = false) (hgrp : isComparisonGroup o = false)
    (hcol : isColumn o = false) :
    QueryBuilder.«where» b [o] h = .error .valueError
    ∧ QueryBuilder.having b [o] h = .error .valueError
    ∧ QueryBuilder.join b t o jt h = .error .valueError
    ∧ QueryBuilder.groupBy b [o] h = .error .valueError
    ∧ QueryBuilder.orderBy b o dir h = .error .valueError
    ∧ QueryBuilder.distinctOn b [o] h = .error .valueError := by
  refine ⟨?_, ?_, ?_, ?_, ?_, ?_⟩
  · simp [QueryBuilder.«where», hcmp, hgrp]
  · simp [QueryBuilder.having, hcmp]
  · cases o
    case comp l op r => simp [isComparison] at hcmp
    all_goals rfl
  · simp [QueryBuilder.groupBy, hcol]
  · cases o
    case column c => simp [isColumn] at hcol
    all_goals rfl
  · simp [QueryBuilder.distinctOn, hcol]

/-- Witness for C5: the claim applied to the fresh builder and the
integer argument 7. -/
theorem claim_C5_bad_argument_at_call_witness :
    QueryBuilder.«where» (QueryBuilder.init PyHeap.empty).1 [Obj.int 7]
        (QueryBuilder.init PyHeap.empty).2 = .error .valueError
    ∧ QueryBuilder.having (QueryBuilder.init PyHeap.empty).1 [Obj.int 7]
        (QueryBuilder.init PyHeap.empty).2 = .error .valueError
    ∧ QueryBuilder.join (QueryBuilder.init PyHeap.empty).1 udTable
        (Obj.int 7) .INNER (QueryBuilder.init PyHeap.empty).2
      = .error .valueError
    ∧ QueryBuilder.groupBy (QueryBuilder.init PyHeap.empty).1 [Obj.int 7]
        (QueryBuilder.init PyHeap.empty).2 = .error .valueError
    ∧ QueryBuilder.orderBy (QueryBuilder.init PyHeap.empty).1 (Obj.int 7)
        .ASC (QueryBuilder.init PyHeap.empty).2 = .error .valueError
    ∧ QueryBuilder.distinctOn (QueryBuilder.init PyHeap.empty).1 [Obj.int 7]
        (QueryBuilder.init PyHeap.empty).2 = .error .valueError :=
  claim_C5_bad_argument_at_call (QueryBuilder.init PyHeap.empty).1
    (QueryBuilder.init PyHeap.empty).2 (Obj.int 7) udTable .INNER .ASC
    (by decide) (by decide) (by decide)

/-- The status enum node referenced by users.status. -/
def enumA : DBType :=
  ⟨"status", {"active", "inactive"}, {("users", "status")}⟩

/-- The same enum type produced by another part of the pipeline, with a
different reference column. -/
def enumB : DBType :=
  ⟨"status", {"active", "inactive"}, {("orders", "state")}⟩

/-- An enum node with the same name but a different value set. -/
def enumC : DBType :=
  ⟨"status", {"active"}, ∅⟩

/-- C8: enum type merge is commutative; with identical name and values it
yields the node carrying that name, those values and the union of the
two reference-column sets, and when the names or value sets differ it
raises the merge-conflict error. -/
theorem claim_C8_merge_commutative (a b : DBType)
    (hn : a.name = b.name) (hv : a.values = b.values) :
    DBType.merge a b
      = .ok ⟨a.name, a.values, a.referenceColumns ∪ b.referenceColumns⟩
    ∧ (∀ c d : DBType, DBType.merge c d = DBType.merge d c)
    ∧ (∀ c d : DBType, ¬(c.name = d.name ∧ c.values = d.values) →
        DBType.merge c d = .error .valueError) := by
  refine ⟨?_, ?_, ?_⟩
  · unfold DBType.merge
    rw [if_neg (by push_neg; exact ⟨hn, hv⟩)]
  · intro c d
    unfold DBType.merge
    rcases eq_or_ne c.name d.name with h1 | h1
    · rcases eq_or_ne c.values d.values with h2 | h2
      · rw [if_neg (by push_neg; exact ⟨h1, h2⟩),
          if_neg (by push_neg; exact ⟨h1.symm, h2.symm⟩)]
        simp [h1, h2, Finset.union_comm]
      · rw [if_pos (Or.inr h2), if_pos (Or.inr h2.symm)]
    · rw [if_pos (Or.inl h1), if_pos (Or.inl h1.symm)]
  · intro c d hne
    unfold DBType.merge
    rw [if_pos (not_and_or.mp hne)]

/-- Witness for C8: merging the two status nodes both ways, and the
conflict on a value-set mismatch. -/
theorem claim_C8_merge_commutative_witness :
    DBType.merge enumA enumB
      = .ok ⟨enumA.name, enumA.values,
          enumA.referenceColumns ∪ enumB.referenceColumns⟩
    ∧ DBType.merge enumA enumB = DBType.merge enumB enumA
    ∧ DBType.merge enumA enumC = .error .valueError := by
  refine ⟨(claim_C8_merge_commutative enumA enumB rfl rfl).1,
    (claim_C8_merge_commutative enumA enumB rfl rfl).2.1 enumA enumB,
    (claim_C8_merge_commutative enumA enumB rfl rfl).2.2 enumA enumC ?_⟩
  intro hand
  exact absurd hand.2 (by decide)

theorem PyHeap.readFm_writeFm_self (h : PyHeap) (r : Nat) (m : FMRecord)
    (hr : r < h.fms.length) : (h.writeFm r m).readFm r = m := by
  unfold PyHeap.readFm PyHeap.writeFm
  simp only []
  rw [List.getD_eq_getElem?_getD, List.getElem?_set_self (by simpa using hr)]
  rfl

theorem PyHeap.readFm_writeFm_ne (h : PyHeap) (r r2 : Nat) (m : FMRecord)
    (hne : r2 ≠ r) : (h.writeFm r m).readFm r2 = h.readFm r2 := by
  unfold PyHeap.readFm PyHeap.writeFm
  simp only []
  rw [List.getD_eq_getElem?_getD, List.getD_eq_getElem?_getD,
    List.getElem?_set_ne (Ne.symm hne)]

theorem PyHeap.readFm_allocFm (h : PyHeap) (m : FMRecord) (r2 : Nat)
    (hr2 : r2 < h.fms.length) : (h.allocFm m).2.readFm r2 = h.readFm r2 := by
  unfold PyHeap.readFm PyHeap.allocFm
  simp only []
  rw [List.getD_eq_getElem?_getD, List.getD_eq_getElem?_getD,
    List.getElem?_append_left hr2]

/-- The fresh metadata record `_column_to_metadata` builds for a column
argument (src/iceaxe/functions.py lines 767-773). -/
def fmOf (c : DBField) : FMRecord :=
  { literal := colToQuery c, originalField := some c,
    localName := Option.none }

/-- A heap holding one FunctionMetadata node with literal `x`. -/
def c9Heap : PyHeap :=
  ⟨[], [{ literal := "x".data, originalField := Option.none,
          localName := Option.none }]⟩

/-- The heap after `count` of that node. -/
def c9After : PyHeap :=
  match FunctionBuilder.count c9Heap (.fmRef 0) with
  | .ok oh => oh.2
  | .error _ => c9Heap

/-- C9 counterexample: the claim states that a function builder applied
to an argument that is already a FunctionMetadata node produces a new
AST node and leaves the argument unchanged.  `count` applied to the one
node of `c9Heap` returns the very same node (reference 0) and rewrites
its literal from `x` to `count(x)` in place. -/
theorem claim_C9_counterexample :
    FunctionBuilder.count c9Heap (.fmRef 0) = .ok (.fmRef 0, c9After)
    ∧ (c9Heap.readFm 0).literal = "x".data
    ∧ (c9After.readFm 0).literal = "count(x)".data
    ∧ decide (c9After.readFm 0 = c9Heap.readFm 0) = false := by
  exact ⟨by decide, by decide, by decide, by decide⟩

/-- C9 (amended): a function builder applied to an argument that is
already a FunctionMetadata node returns that very node, rewriting its
literal in place by wrapping it in the function text; only a plain
column argument is wrapped in a freshly allocated node, which leaves
every existing node unchanged. -/
theorem claim_C9_builders_mutate_metadata (h : PyHeap) (r : Nat)
    (c : DBField) (r2 : Nat) (hr : r < h.fms.length)
    (hr2 : r2 < h.fms.length) :
    FunctionBuilder.count h (.fmRef r)
      = .ok (.fmRef r, fmWrap h r "count(".data [')'])
    ∧ FunctionBuilder.distinct h (.fmRef r)
      = .ok (.fmRef r, fmWrap h r "distinct ".data [])
    ∧ FunctionBuilder.sum h (.fmRef r)
      = .ok (.fmRef r, fmWrap h r "sum(".data [')'])
    ∧ FunctionBuilder.avg h (.fmRef r)
      = .ok (.fmRef r, fmWrap h r "avg(".data [')'])
    ∧ FunctionBuilder.lower h (.fmRef r)
      = .ok (.fmRef r, fmWrap h r "lower(".data [')'])
    ∧ ((fmWrap h r "count(".data [')']).readFm r).literal
        = "count(".data ++ (h.readFm r).literal ++ [')']
    ∧ FunctionBuilder.count h (.column c)
      = .ok (.fmRef h.fms.length,
          fmWrap (h.allocFm (fmOf c)).2 h.fms.length "count(".data [')'])
    ∧ (fmWrap (h.allocFm (fmOf c)).2 h.fms.length
        "count(".data [')']).readFm r2 = h.readFm r2 := by
  refine ⟨rfl, rfl, rfl, rfl, rfl, ?_, rfl, ?_⟩
  · unfold fmWrap
    rw [PyHeap.readFm_writeFm_self _ _ _ hr]
  · unfold fmWrap
    rw [PyHeap.readFm_writeFm_ne _ _ _ _ (Nat.ne_of_lt hr2)]
    exact PyHeap.readFm_allocFm h _ r2 hr2

/-- A second FunctionMetadata node, with literal `y`. -/
def c9Node2 : FMRecord :=
  { literal := "y".data, originalField := Option.none,
    localName := Option.none }

/-- A heap holding the `x` and `y` nodes. -/
def c9Heap2 : PyHeap := (c9Heap.allocFm c9Node2).2

/-- Witness for C9: the amended claim applied to the two-node heap. -/
theorem claim_C9_builders_mutate_metadata_witness :
    FunctionBuilder.count c9Heap2 (.fmRef 0)
      = .ok (.fmRef 0, fmWrap c9Heap2 0 "count(".data [')'])
    ∧ ((fmWrap c9Heap2 0 "count(".data [')']).readFm 0).literal
        = "count(".data ++ (c9Heap2.readFm 0).literal ++ [')']
    ∧ (fmWrap (c9Heap2.allocFm (fmOf udField)).2 c9Heap2.fms.length
        "count(".data [')']).readFm 1 = c9Heap2.readFm 1 := by
  refine ⟨?_, ?_, ?_⟩
  · exact (claim_C9_builders_mutate_metadata c9Heap2 0 udField 1 (by decide)
      (by decide)).1
  · exact (claim_C9_builders_mutate_metadata c9Heap2 0 udField 1 (by decide)
      (by decide)).2.2.2.2.2.1
  · exact (claim_C9_builders_mutate_metadata c9Heap2 0 udField 1 (by decide)
      (by decide)).2.2.2.2.2.2.2

/-- A primary-key constraint node. -/
def consA : DBConstraint :=
  ⟨"users", "users_pkey", {"id"}, .PRIMARY_KEY, Option.none, Option.none⟩

/-- An index constraint node (a different constraint type). -/
def consB : DBConstraint :=
  ⟨"users", "users_idx", {"id"}, .INDEX, Option.none, Option.none⟩

/-- A primary-key constraint node whose dumped content differs from
`consA` (different table name). -/
def consC : DBConstraint :=
  ⟨"accounts", "users_pkey", {"id"}, .PRIMARY_KEY, Option.none, Option.none⟩

/-- C10: for constraint nodes whose constraint types differ, `migrate`
raises NotImplementedError having recorded no action; with matching
types nothing is recorded when the dumps (`constraint_name` excluded)
agree, and destroy-and-recreate is attempted exactly when some dumped
field differs — the destroy actions are recorded first. -/
theorem claim_C10_migrate_not_implemented (a b : DBConstraint)
    (hty : a.constraintType ≠ b.constraintType) :
    DBConstraint.migrate a b = ([], some SchemaErr.notImplementedError)
    ∧ (∀ c d : DBConstraint, c.constraintType = d.constraintType →
        c.dump = d.dump → DBConstraint.migrate c d = ([], Option.none))
    ∧ (∀ c d : DBConstraint, c.constraintType = d.constraintType →
        c.dump ≠ d.dump →
        c.destroy <+: (DBConstraint.migrate c d).1) := by
  refine ⟨?_, ?_, ?_⟩
  · unfold DBConstraint.migrate
    rw [if_pos hty]
  · intro c d h1 h2
    unfold DBConstraint.migrate
    rw [if_neg (not_not_intro h1), if_neg (not_not_intro h2)]
  · intro c d h1 h2
    unfold DBConstraint.migrate
    rw [if_neg (not_not_intro h1), if_pos h2]
    cases hc : c.create with
    | ok acts => exact List.prefix_append c.destroy acts
    | error e => exact List.prefix_rfl

/-- Witness for C10: the type mismatch between the primary key and the
index, the no-op migration of identical nodes, and the
destroy-and-recreate on a changed dump. -/
theorem claim_C10_migrate_not_implemented_witness :
    DBConstraint.migrate consA consB = ([], some SchemaErr.notImplementedError)
    ∧ DBConstraint.migrate consA consA = ([], Option.none)
    ∧ consA.destroy <+: (DBConstraint.migrate consA consC).1 := by
  refine ⟨(claim_C10_migrate_not_implemented consA consB (by decide)).1,
    (claim_C10_migrate_not_implemented consA consB (by decide)).2.1
      consA consA rfl rfl,
    (claim_C10_migrate_not_implemented consA consB (by decide)).2.2
      consA consC rfl (by decide)⟩

/-- Witness for C7: the amended claim applied at a concrete non-empty raw
query. -/
theorem claim_C7_text_override_verbatim_witness :
    QueryBuilder.buildStr
        (QueryBuilder.text (QueryBuilder.init PyHeap.empty).1 "SELECT 1".data
          [Obj.int 5] (QueryBuilder.init PyHeap.empty).2).1
        (QueryBuilder.text (QueryBuilder.init PyHeap.empty).1 "SELECT 1".data
          [Obj.int 5] (QueryBuilder.init PyHeap.empty).2).2
      = .ok ("SELECT 1".data, [Obj.int 5]) :=
  claim_C7_text_override_verbatim _ _ _ _ (by decide)


end Iceaxe
